import Mathlib

/-!
Verification of `graphql-introspection-parser` (src/src/lib.rs).

The library decodes the JSON result of a GraphQL `__schema` introspection
query into a schema `Document`.  The decode pipeline is written with serde
visitors; here each visitor is embedded shallowly as a Lean function from a
JSON value to `Except DecodeError α`.  JSON objects are modelled as the
ordered list of their key/value entries, exactly as serde_json's `MapAccess`
streams them to a `visit_map` implementation, so duplicate keys and key order
are observable — which is what the visitors in the source actually see.
-/

set_option linter.unusedVariables false
set_option linter.unreachableTactic false
set_option linter.unusedTactic false

namespace GraphQLIntrospection

/-- A JSON value as serde_json's deserializer presents it to a visitor.
An object keeps its entries in stream order, duplicates included. -/
inductive Json where
  | null
  | bool (b : Bool)
  | num (n : Int)
  | str (s : String)
  | arr (elems : List Json)
  | obj (entries : List (String × Json))
deriving Repr

/-- The classification of serde decode errors that the source produces:
`de::Error::missing_field`, `de::Error::duplicate_field`,
`de::Error::unknown_field` (used by `require_field_empty` for forbidden
fields), serde's unknown-variant error (decoding `TypeKind`),
`de::Error::invalid_type` (carrying what was expected), and
`de::Error::custom`. -/
inductive DecodeError where
  | missingField (key : String)
  | duplicateField (key : String)
  | unknownField (key : String)
  | unknownVariant (value : String)
  | invalidType (expected : String)
  | custom (msg : String)
deriving Repr, DecidableEq

/-- Decidable equality for decode results, so concrete runs of the
decoders can be checked by `decide`. -/
instance {ε α : Type} [DecidableEq ε] [DecidableEq α] :
    DecidableEq (Except ε α)
  | .ok a, .ok b => decidable_of_iff (a = b) (by simp)
  | .error a, .error b => decidable_of_iff (a = b) (by simp)
  | .ok _, .error _ => isFalse (by simp)
  | .error _, .ok _ => isFalse (by simp)

/-! ### The graphql_parser data model (the output side)

`Pos` and `directives` attributes are omitted: the source always sets them to
`Pos::default()` and `vec![]`, so they carry no information. -/

/-- `graphql_parser::schema::Type`: a type reference. -/
inductive GType where
  | NamedType (name : String)
  | ListType (inner : GType)
  | NonNullType (inner : GType)
deriving Repr, DecidableEq

/-- `graphql_parser::schema::InputValue`.  `default_value` is
`Option<Value>` in the source; this code never builds a `Some`, and the
payload type is irrelevant here, so it is modelled as `Option Unit`. -/
structure InputValue where
  description : Option String
  name : String
  value_type : GType
  default_value : Option Unit
deriving Repr, DecidableEq

/-- `graphql_parser::schema::Field`. -/
structure Field where
  description : Option String
  name : String
  arguments : List InputValue
  field_type : GType
deriving Repr, DecidableEq

/-- `graphql_parser::schema::EnumValue`. -/
structure EnumValue where
  description : Option String
  name : String
deriving Repr, DecidableEq

/-- `graphql_parser::schema::ScalarType`. -/
structure ScalarType where
  description : Option String
  name : String
deriving Repr, DecidableEq

/-- `graphql_parser::schema::ObjectType`. -/
structure ObjectType where
  description : Option String
  name : String
  implements_interfaces : List String
  fields : List Field
deriving Repr, DecidableEq

/-- `graphql_parser::schema::InterfaceType`. -/
structure InterfaceType where
  description : Option String
  name : String
  fields : List Field
deriving Repr, DecidableEq

/-- `graphql_parser::schema::UnionType`. -/
structure UnionType where
  description : Option String
  name : String
  types : List String
deriving Repr, DecidableEq

/-- `graphql_parser::schema::EnumType`. -/
structure EnumType where
  description : Option String
  name : String
  values : List EnumValue
deriving Repr, DecidableEq

/-- `graphql_parser::schema::InputObjectType`. -/
structure InputObjectType where
  description : Option String
  name : String
  fields : List InputValue
deriving Repr, DecidableEq

/-- `graphql_parser::schema::TypeDefinition`: the six type-definition kinds. -/
inductive TypeDefinition where
  | Scalar (t : ScalarType)
  | Object (t : ObjectType)
  | Interface (t : InterfaceType)
  | Union (t : UnionType)
  | Enum (t : EnumType)
  | InputObject (t : InputObjectType)
deriving Repr, DecidableEq

/-- `graphql_parser::schema::SchemaDefinition`: the three optional root
type names. -/
structure SchemaDefinition where
  query : Option String
  mutation : Option String
  subscription : Option String
deriving Repr, DecidableEq

/-- `graphql_parser::schema::Definition`. -/
inductive Definition where
  | SchemaDefinition (s : SchemaDefinition)
  | TypeDefinition (t : TypeDefinition)
deriving Repr, DecidableEq

/-- `graphql_parser::schema::Document`. -/
structure Document where
  definitions : List Definition
deriving Repr, DecidableEq

/-! ### Key-name constants (lib.rs lines 11-30) -/

def QUERY_TYPE_ALIAS : String := "queryType"
def MUTATION_TYPE_ALIAS : String := "mutationType"
def SUBSCRIPTION_TYPE_ALIAS : String := "subscriptionType"
def TYPES_ALIAS : String := "types"
def DIRECTIVES_ALIAS : String := "directives"

def KIND_ALIAS : String := "kind"
def NAME_ALIAS : String := "name"
def DESCRIPTION_ALIAS : String := "description"
def FIELDS_ALIAS : String := "fields"
def INPUT_FIELDS_ALIAS : String := "inputFields"
def INTERFACES_ALIAS : String := "interfaces"
def ENUM_VALUES_ALIAS : String := "enumValues"
def POSSIBLE_TYPES_ALIAS : String := "possibleTypes"
def ARGS_ALIAS : String := "args"
def TYPE_ALIAS : String := "type"
def DEFAULT_VALUE_ALIAS : String := "defaultValue"
def OF_TYPE_ALIAS : String := "ofType"
def IS_DEPRECATED_ALIAS : String := "isDeprecated"
def DEPRECATION_REASON_ALIAS : String := "deprecationReason"

/-! ### Primitive serde decoders -/

/-- Is this JSON value `null`?  (Used to model serde's `Option`
deserialization inside the recursive type-reference loop.) -/
def Json.isNull : Json → Bool
  | .null => true
  | _ => false

/-- serde_json deserializing a `String`: only a JSON string succeeds. -/
def decodeString : Json → Except DecodeError String
  | .str s => .ok s
  | _ => .error (.invalidType "a string")

/-- serde deserializing an `Option<String>`: `null` is `None`, a string is
`Some`, anything else is an invalid-type error. -/
def decodeOptString : Json → Except DecodeError (Option String)
  | .null => .ok none
  | .str s => .ok (some s)
  | _ => .error (.invalidType "a string")

/-- `TypeKind` (lib.rs lines 619-633): serde-derived enum over the six
kind strings. -/
inductive TypeKind where
  | Scalar
  | Object
  | Interface
  | Union
  | Enum
  | InputObject
deriving Repr, DecidableEq

/-- serde deserializing `TypeKind`: one of the six renamed variant strings;
any other string is an unknown-variant error; a non-string is an
invalid-type error. -/
def decodeTypeKind : Json → Except DecodeError TypeKind
  | .str "SCALAR" => .ok .Scalar
  | .str "OBJECT" => .ok .Object
  | .str "INTERFACE" => .ok .Interface
  | .str "UNION" => .ok .Union
  | .str "ENUM" => .ok .Enum
  | .str "INPUT_OBJECT" => .ok .InputObject
  | .str s => .error (.unknownVariant s)
  | _ => .error (.invalidType "variant identifier")

/-- `require_field` (lib.rs lines 635-640). -/
def require_field {α : Type} (key : String) (field : Option α) :
    Except DecodeError α :=
  match field with
  | some v => .ok v
  | none => .error (.missingField key)

/-- `require_field_empty` (lib.rs lines 642-651): a populated field that
must be absent for the resolved kind is an unknown-field error naming it. -/
def require_field_empty {α : Type} (key : String) (field : Option α) :
    Except DecodeError Unit :=
  match field with
  | none => .ok ()
  | some _ => .error (.unknownField key)

/-- `handle_unexpected_key` (lib.rs lines 653-663): the value of an
unrecognized key is consumed as `IgnoredAny`, which always succeeds. -/
def handle_unexpected_key (key : String) (v : Json) : Except DecodeError Unit :=
  .ok ()

/-- serde_json's `Map::get` after materializing a JSON object into a map:
insertion overwrites, so the last occurrence of a duplicated key wins. -/
def jsonGet (entries : List (String × Json)) (key : String) : Option Json :=
  (entries.filter (fun kv => kv.1 = key)).getLast?.map (fun kv => kv.2)

/-- `DeserializeWith::deserialize_value` (lib.rs lines 598-605):
`Option<DeserializeWith<T>>`, so `null` is `none` and anything else is
decoded by the inner decoder. -/
def deserialize_value {α : Type} (dec : Json → Except DecodeError α) :
    Json → Except DecodeError (Option α)
  | .null => .ok none
  | v =>
    match dec v with
    | .ok x => .ok (some x)
    | .error e => .error e

/-- Decoding `Vec<DeserializeWith<T>>` element by element, in order,
failing on the first element error. -/
def decodeList {α : Type} (dec : Json → Except DecodeError α) :
    List Json → Except DecodeError (List α)
  | [] => .ok []
  | v :: rest =>
    match dec v with
    | .error e => .error e
    | .ok x =>
      match decodeList dec rest with
      | .error e => .error e
      | .ok xs => .ok (x :: xs)

/-- `DeserializeWith::deserialize_array` (lib.rs lines 607-616):
`Option<Vec<DeserializeWith<T>>>`: `null` is `none`, an array is decoded
elementwise, anything else is an invalid-type error. -/
def deserialize_array {α : Type} (dec : Json → Except DecodeError α) :
    Json → Except DecodeError (Option (List α))
  | .null => .ok none
  | .arr xs =>
    match decodeList dec xs with
    | .ok l => .ok (some l)
    | .error e => .error e
  | _ => .error (.invalidType "a sequence")

/-! ### Type-Reference Decoder (`deserialize_type_ref`, lib.rs 463-512) -/

/-- The local accumulator of `TypeRefVisitor::visit_map`. -/
structure TypeRefState where
  kind : Option String
  name : Option String
  of_type : Option GType
deriving Repr, DecidableEq

/-- The dispatch at the end of `TypeRefVisitor::visit_map`
(lib.rs 499-507). -/
def typeRefFinish (st : TypeRefState) : Except DecodeError GType :=
  match st.kind with
  | none => .error (.missingField KIND_ALIAS)
  | some k =>
    if k = "LIST" then
      match st.of_type with
      | some t => .ok (.ListType t)
      | none => .error (.missingField OF_TYPE_ALIAS)
    else if k = "NON_NULL" then
      match st.of_type with
      | some t => .ok (.NonNullType t)
      | none => .error (.missingField OF_TYPE_ALIAS)
    else
      match st.name with
      | some n => .ok (.NamedType n)
      | none => .error (.missingField NAME_ALIAS)

mutual

/-- `deserialize_type_ref` (lib.rs 463-512): `deserialize_map` with
`TypeRefVisitor`; a non-object input is an invalid-type error. -/
def deserialize_type_ref : Json → Except DecodeError GType
  | .obj entries =>
      typeRefGo { kind := none, name := none, of_type := none } entries
  | _ => .error (.invalidType "A TypeRef object")

/-- The key loop of `TypeRefVisitor::visit_map` (lib.rs 484-497), each
iteration's body inlined so the mutual recursion stays structural.
`ofType` is read through `DeserializeWith::deserialize_value`: `null`
stores `none`, anything else is decoded recursively.  The lemma
`typeRefGo_cons` below re-expresses one iteration through `typeRefStep`. -/
def typeRefGo (st : TypeRefState) :
    List (String × Json) → Except DecodeError GType
  | [] => typeRefFinish st
  | (k, v) :: rest =>
    if k = KIND_ALIAS then
      match decodeString v with
      | .ok s => typeRefGo { st with kind := some s } rest
      | .error e => .error e
    else if k = NAME_ALIAS then
      match decodeOptString v with
      | .ok n => typeRefGo { st with name := n } rest
      | .error e => .error e
    else if k = OF_TYPE_ALIAS then
      if v.isNull then typeRefGo { st with of_type := none } rest
      else
        match deserialize_type_ref v with
        | .ok t => typeRefGo { st with of_type := some t } rest
        | .error e => .error e
    else
      match handle_unexpected_key k v with
      | .ok _ => typeRefGo st rest
      | .error e => .error e

end

/-- One `while let Some(key) = access.next_key()?` iteration of
`TypeRefVisitor::visit_map` (lib.rs 484-497) as a state transformer: the
effect of one key/value entry on the visitor's accumulator. -/
def typeRefStep (st : TypeRefState) : String × Json →
    Except DecodeError TypeRefState
  | (k, v) =>
    if k = KIND_ALIAS then
      match decodeString v with
      | .ok s => .ok { st with kind := some s }
      | .error e => .error e
    else if k = NAME_ALIAS then
      match decodeOptString v with
      | .ok n => .ok { st with name := n }
      | .error e => .error e
    else if k = OF_TYPE_ALIAS then
      if v.isNull then .ok { st with of_type := none }
      else
        match deserialize_type_ref v with
        | .ok t => .ok { st with of_type := some t }
        | .error e => .error e
    else
      match handle_unexpected_key k v with
      | .ok _ => .ok st
      | .error e => .error e

/-- `Deserialize for DeserializeWith<NamedType>` (lib.rs 514-527): run the
type-reference decoder and insist the result is a bare `NamedType`; a
`ListType`/`NonNullType` wrapper is a custom error. -/
def decodeNamedType (v : Json) : Except DecodeError String :=
  match deserialize_type_ref v with
  | .ok (.NamedType name) => .ok name
  | .ok _ => .error (.custom "Expected NamedType")
  | .error e => .error e

/-- `next_value::<Option<json::Value>>`: `null` is `None`, any other JSON
value is kept as is; this never fails. -/
def decodeOptJson : Json → Except DecodeError (Option Json)
  | .null => .ok none
  | v => .ok (some v)

/-! ### InputValue decoder (`deserialize_input_value`, lib.rs 390-452) -/

/-- The local accumulator of `InputValueVisitor::visit_map`. -/
structure InputValueState where
  name : Option String
  description : Option String
  maybe_value_type : Option GType
  default_value_json : Option Json
deriving Repr

/-- One key iteration of `InputValueVisitor::visit_map` (lib.rs 412-435). -/
def inputValueStep (st : InputValueState) : String × Json →
    Except DecodeError InputValueState
  | (k, v) =>
    if k = NAME_ALIAS then
      match decodeString v with
      | .ok s => .ok { st with name := some s }
      | .error e => .error e
    else if k = DESCRIPTION_ALIAS then
      match decodeOptString v with
      | .ok d => .ok { st with description := d }
      | .error e => .error e
    else if k = TYPE_ALIAS then
      match deserialize_value deserialize_type_ref v with
      | .ok t => .ok { st with maybe_value_type := t }
      | .error e => .error e
    else if k = DEFAULT_VALUE_ALIAS then
      match decodeOptJson v with
      | .ok j => .ok { st with default_value_json := j }
      | .error e => .error e
    else
      match handle_unexpected_key k v with
      | .ok _ => .ok st
      | .error e => .error e

/-- The end of `InputValueVisitor::visit_map` (lib.rs 437-447): `type` is
required first, then `name`; the commented-out default-value conversion is
absent, so `default_value` is always `none`. -/
def inputValueFinish (st : InputValueState) : Except DecodeError InputValue :=
  match require_field TYPE_ALIAS st.maybe_value_type with
  | .error e => .error e
  | .ok value_type =>
    match require_field NAME_ALIAS st.name with
    | .error e => .error e
    | .ok name =>
      .ok { description := st.description, name := name,
            value_type := value_type, default_value := none }

/-- The key loop of `InputValueVisitor::visit_map`. -/
def inputValueGo (st : InputValueState) :
    List (String × Json) → Except DecodeError InputValue
  | [] => inputValueFinish st
  | e :: rest =>
    match inputValueStep st e with
    | .ok st' => inputValueGo st' rest
    | .error err => .error err

/-- `deserialize_input_value` (lib.rs 390-452). -/
def deserialize_input_value : Json → Except DecodeError InputValue
  | .obj entries =>
      inputValueGo
        { name := none, description := none, maybe_value_type := none,
          default_value_json := none } entries
  | _ => .error (.invalidType "A InputValue object")

/-! ### Field decoder (`deserialize_field`, lib.rs 319-379) -/

/-- The local accumulator of `FieldVisitor::visit_map`. -/
structure FieldState where
  name : Option String
  description : Option String
  value_type : Option GType
  input_fields : Option (List InputValue)
deriving Repr, DecidableEq

/-- One key iteration of `FieldVisitor::visit_map` (lib.rs 341-365);
`isDeprecated` and `deprecationReason` are recognized but discarded. -/
def fieldStep (st : FieldState) : String × Json → Except DecodeError FieldState
  | (k, v) =>
    if k = NAME_ALIAS then
      match decodeString v with
      | .ok s => .ok { st with name := some s }
      | .error e => .error e
    else if k = DESCRIPTION_ALIAS then
      match decodeOptString v with
      | .ok d => .ok { st with description := d }
      | .error e => .error e
    else if k = TYPE_ALIAS then
      match deserialize_value deserialize_type_ref v with
      | .ok t => .ok { st with value_type := t }
      | .error e => .error e
    else if k = ARGS_ALIAS then
      match deserialize_array deserialize_input_value v with
      | .ok xs => .ok { st with input_fields := xs }
      | .error e => .error e
    else if k = IS_DEPRECATED_ALIAS then .ok st
    else if k = DEPRECATION_REASON_ALIAS then .ok st
    else
      match handle_unexpected_key k v with
      | .ok _ => .ok st
      | .error e => .error e

/-- The end of `FieldVisitor::visit_map` (lib.rs 367-374): the struct
literal requires `name` first, then defaults `args`, then requires
`type`. -/
def fieldFinish (st : FieldState) : Except DecodeError Field :=
  match require_field NAME_ALIAS st.name with
  | .error e => .error e
  | .ok name =>
    match require_field TYPE_ALIAS st.value_type with
    | .error e => .error e
    | .ok field_type =>
      .ok { description := st.description, name := name,
            arguments := st.input_fields.getD [], field_type := field_type }

/-- The key loop of `FieldVisitor::visit_map`. -/
def fieldGo (st : FieldState) : List (String × Json) → Except DecodeError Field
  | [] => fieldFinish st
  | e :: rest =>
    match fieldStep st e with
    | .ok st' => fieldGo st' rest
    | .error err => .error err

/-- `deserialize_field` (lib.rs 319-379). -/
def deserialize_field : Json → Except DecodeError Field
  | .obj entries =>
      fieldGo
        { name := none, description := none, value_type := none,
          input_fields := none } entries
  | _ => .error (.invalidType "A Field object")

/-! ### EnumValue decoder (`deserialize_enum_value`, lib.rs 538-588) -/

/-- The local accumulator of `EnumValueVisitor::visit_map`. -/
structure EnumValueState where
  name : Option String
  description : Option String
deriving Repr, DecidableEq

/-- One key iteration of `EnumValueVisitor::visit_map` (lib.rs 558-576). -/
def enumValueStep (st : EnumValueState) : String × Json →
    Except DecodeError EnumValueState
  | (k, v) =>
    if k = NAME_ALIAS then
      match decodeString v with
      | .ok s => .ok { st with name := some s }
      | .error e => .error e
    else if k = DESCRIPTION_ALIAS then
      match decodeOptString v with
      | .ok d => .ok { st with description := d }
      | .error e => .error e
    else if k = IS_DEPRECATED_ALIAS then .ok st
    else if k = DEPRECATION_REASON_ALIAS then .ok st
    else
      match handle_unexpected_key k v with
      | .ok _ => .ok st
      | .error e => .error e

/-- The end of `EnumValueVisitor::visit_map` (lib.rs 578-583). -/
def enumValueFinish (st : EnumValueState) : Except DecodeError EnumValue :=
  match require_field NAME_ALIAS st.name with
  | .error e => .error e
  | .ok name => .ok { description := st.description, name := name }

/-- The key loop of `EnumValueVisitor::visit_map`. -/
def enumValueGo (st : EnumValueState) :
    List (String × Json) → Except DecodeError EnumValue
  | [] => enumValueFinish st
  | e :: rest =>
    match enumValueStep st e with
    | .ok st' => enumValueGo st' rest
    | .error err => .error err

/-- `deserialize_enum_value` (lib.rs 538-588). -/
def deserialize_enum_value : Json → Except DecodeError EnumValue
  | .obj entries => enumValueGo { name := none, description := none } entries
  | _ => .error (.invalidType "An EnumValue object")

/-! ### Type-Definition decoder (`deserialize_type_definition`,
lib.rs 162-308) -/

/-- The local accumulator of `TypeDefinitionVisitor::visit_map`
(lib.rs 179-186). -/
structure TypeDefState where
  kind : Option TypeKind
  maybe_name : Option String
  description : Option String
  fields : Option (List Field)
  input_fields : Option (List InputValue)
  interfaces : Option (List String)
  enum_values : Option (List EnumValue)
  possible_types : Option (List String)
deriving Repr, DecidableEq

/-- The all-`none` initial accumulator of `TypeDefinitionVisitor`. -/
def TypeDefState.initial : TypeDefState :=
  { kind := none, maybe_name := none, description := none, fields := none,
    input_fields := none, interfaces := none, enum_values := none,
    possible_types := none }

/-- One key iteration of `TypeDefinitionVisitor::visit_map`
(lib.rs 188-216). -/
def typeDefStep (st : TypeDefState) : String × Json →
    Except DecodeError TypeDefState
  | (k, v) =>
    if k = KIND_ALIAS then
      match decodeTypeKind v with
      | .ok t => .ok { st with kind := some t }
      | .error e => .error e
    else if k = NAME_ALIAS then
      match decodeString v with
      | .ok s => .ok { st with maybe_name := some s }
      | .error e => .error e
    else if k = DESCRIPTION_ALIAS then
      match decodeOptString v with
      | .ok d => .ok { st with description := d }
      | .error e => .error e
    else if k = FIELDS_ALIAS then
      match deserialize_array deserialize_field v with
      | .ok xs => .ok { st with fields := xs }
      | .error e => .error e
    else if k = INPUT_FIELDS_ALIAS then
      match deserialize_array deserialize_input_value v with
      | .ok xs => .ok { st with input_fields := xs }
      | .error e => .error e
    else if k = INTERFACES_ALIAS then
      match deserialize_array decodeNamedType v with
      | .ok xs => .ok { st with interfaces := xs }
      | .error e => .error e
    else if k = ENUM_VALUES_ALIAS then
      match deserialize_array deserialize_enum_value v with
      | .ok xs => .ok { st with enum_values := xs }
      | .error e => .error e
    else if k = POSSIBLE_TYPES_ALIAS then
      match deserialize_array decodeNamedType v with
      | .ok xs => .ok { st with possible_types := xs }
      | .error e => .error e
    else
      match handle_unexpected_key k v with
      | .ok _ => .ok st
      | .error e => .error e

/-- The dispatch at the end of `TypeDefinitionVisitor::visit_map`
(lib.rs 218-303): `name` required first, then `kind`, then the per-kind
forbidden-field checks in source order; permitted collections left unset
default to the empty sequence.  `possibleTypes` is tolerated on an
`INTERFACE` (source comment at line 251) and `enumValues` is never checked
for emptiness. -/
def typeDefFinish (st : TypeDefState) : Except DecodeError TypeDefinition :=
  match require_field NAME_ALIAS st.maybe_name with
  | .error e => .error e
  | .ok name =>
    match require_field KIND_ALIAS st.kind with
    | .error e => .error e
    | .ok kind =>
      match kind with
      | .Scalar =>
        match require_field_empty FIELDS_ALIAS st.fields with
        | .error e => .error e
        | .ok _ =>
          match require_field_empty INPUT_FIELDS_ALIAS st.input_fields with
          | .error e => .error e
          | .ok _ =>
            match require_field_empty INTERFACES_ALIAS st.interfaces with
            | .error e => .error e
            | .ok _ =>
              match require_field_empty POSSIBLE_TYPES_ALIAS st.possible_types with
              | .error e => .error e
              | .ok _ => .ok (.Scalar { description := st.description, name := name })
      | .Object =>
        match require_field_empty INPUT_FIELDS_ALIAS st.input_fields with
        | .error e => .error e
        | .ok _ =>
          match require_field_empty POSSIBLE_TYPES_ALIAS st.possible_types with
          | .error e => .error e
          | .ok _ =>
            .ok (.Object { description := st.description, name := name,
                           implements_interfaces := st.interfaces.getD [],
                           fields := st.fields.getD [] })
      | .Interface =>
        match require_field_empty INPUT_FIELDS_ALIAS st.input_fields with
        | .error e => .error e
        | .ok _ =>
          match require_field_empty INTERFACES_ALIAS st.interfaces with
          | .error e => .error e
          | .ok _ =>
            .ok (.Interface { description := st.description, name := name,
                              fields := st.fields.getD [] })
      | .Union =>
        match require_field_empty FIELDS_ALIAS st.fields with
        | .error e => .error e
        | .ok _ =>
          match require_field_empty INPUT_FIELDS_ALIAS st.input_fields with
          | .error e => .error e
          | .ok _ =>
            match require_field_empty INTERFACES_ALIAS st.interfaces with
            | .error e => .error e
            | .ok _ =>
              .ok (.Union { description := st.description, name := name,
                            types := st.possible_types.getD [] })
      | .Enum =>
        match require_field_empty FIELDS_ALIAS st.fields with
        | .error e => .error e
        | .ok _ =>
          match require_field_empty INPUT_FIELDS_ALIAS st.input_fields with
          | .error e => .error e
          | .ok _ =>
            match require_field_empty INTERFACES_ALIAS st.interfaces with
            | .error e => .error e
            | .ok _ =>
              match require_field_empty POSSIBLE_TYPES_ALIAS st.possible_types with
              | .error e => .error e
              | .ok _ =>
                .ok (.Enum { description := st.description, name := name,
                             values := st.enum_values.getD [] })
      | .InputObject =>
        match require_field_empty FIELDS_ALIAS st.fields with
        | .error e => .error e
        | .ok _ =>
          match require_field_empty INTERFACES_ALIAS st.interfaces with
          | .error e => .error e
          | .ok _ =>
            match require_field_empty POSSIBLE_TYPES_ALIAS st.possible_types with
            | .error e => .error e
            | .ok _ =>
              .ok (.InputObject { description := st.description, name := name,
                                  fields := st.input_fields.getD [] })

/-- The key loop of `TypeDefinitionVisitor::visit_map`. -/
def typeDefGo (st : TypeDefState) :
    List (String × Json) → Except DecodeError TypeDefinition
  | [] => typeDefFinish st
  | e :: rest =>
    match typeDefStep st e with
    | .ok st' => typeDefGo st' rest
    | .error err => .error err

/-- `deserialize_type_definition` (lib.rs 162-308). -/
def deserialize_type_definition : Json → Except DecodeError TypeDefinition
  | .obj entries => typeDefGo TypeDefState.initial entries
  | _ => .error (.invalidType "A TypeDefinition object")

/-! ### Schema Document Builder (`deserialize_document`, lib.rs 50-151) -/

/-- `deserialize_root_type` (lib.rs 56-82).  On the first occurrence of a
root-type key (`previous_result` still `none`): `null` means no root of
this kind; an object is materialized as a serde_json map (`jsonGet`, last
duplicate wins) and must hold a string under `"name"`, otherwise
missing-field `"name"`; any other JSON value is an invalid-type error.
On a later occurrence after a name was stored, duplicate-field. -/
def deserialize_root_type (previous_result : Option String) (aliasKey : String)
    (v : Json) : Except DecodeError (Option String) :=
  if previous_result = none then
    match v with
    | .null => .ok none
    | .obj map =>
      match jsonGet map "name" with
      | some (.str s) => .ok (some s)
      | _ => .error (.missingField "name")
    | _ => .error (.invalidType "object type")
  else
    .error (.duplicateField aliasKey)

/-- The local accumulator of `DocumentVisitor::visit_map` (lib.rs 95-98). -/
structure DocumentState where
  query_type : Option String
  mutation_type : Option String
  subscription_type : Option String
  types : List Definition
deriving Repr, DecidableEq

/-- One key iteration of `DocumentVisitor::visit_map` (lib.rs 100-132):
the three root keys via `deserialize_root_type`, `directives` consumed as
`IgnoredAny`, `types` as a (non-optional) array of type definitions, and
everything else via `handle_unexpected_key`. -/
def documentStep (st : DocumentState) : String × Json →
    Except DecodeError DocumentState
  | (k, v) =>
    if k = QUERY_TYPE_ALIAS then
      match deserialize_root_type st.query_type QUERY_TYPE_ALIAS v with
      | .ok r => .ok { st with query_type := r }
      | .error e => .error e
    else if k = MUTATION_TYPE_ALIAS then
      match deserialize_root_type st.mutation_type MUTATION_TYPE_ALIAS v with
      | .ok r => .ok { st with mutation_type := r }
      | .error e => .error e
    else if k = SUBSCRIPTION_TYPE_ALIAS then
      match deserialize_root_type st.subscription_type SUBSCRIPTION_TYPE_ALIAS v with
      | .ok r => .ok { st with subscription_type := r }
      | .error e => .error e
    else if k = DIRECTIVES_ALIAS then .ok st
    else if k = TYPES_ALIAS then
      match v with
      | .arr xs =>
        match decodeList deserialize_type_definition xs with
        | .ok ds => .ok { st with types := ds.map Definition.TypeDefinition }
        | .error e => .error e
      | _ => .error (.invalidType "a sequence")
    else
      match handle_unexpected_key k v with
      | .ok _ => .ok st
      | .error e => .error e

/-- The end of `DocumentVisitor::visit_map` (lib.rs 134-146): the decoded
types followed by the one synthesized `SchemaDefinition`. -/
def documentFinish (st : DocumentState) : Document :=
  { definitions :=
      st.types ++
        [Definition.SchemaDefinition
          { query := st.query_type, mutation := st.mutation_type,
            subscription := st.subscription_type }] }

/-- The key loop of `DocumentVisitor::visit_map`. -/
def documentGo (st : DocumentState) :
    List (String × Json) → Except DecodeError Document
  | [] => .ok (documentFinish st)
  | e :: rest =>
    match documentStep st e with
    | .ok st' => documentGo st' rest
    | .error err => .error err

/-- `deserialize_document` (lib.rs 50-151). -/
def deserialize_document : Json → Except DecodeError Document
  | .obj entries =>
      documentGo
        { query_type := none, mutation_type := none,
          subscription_type := none, types := [] } entries
  | _ => .error (.invalidType "A Document object")

/-! ### Response Envelope Unwrapper (`parse` and the serde-derived
containers, lib.rs 32-48) -/

/-- The serde-derived deserializer for `SchemaContainer` (lib.rs 41-48):
one field renamed `"__schema"`, decoded with `deserialize_document`; a
repeated field is a duplicate-field error, unknown fields are ignored
(serde's default), a missing field is a missing-field error. -/
def schemaContainerGo (schema : Option Document) :
    List (String × Json) → Except DecodeError Document
  | [] => require_field "__schema" schema
  | (k, v) :: rest =>
    if k = "__schema" then
      if schema.isSome then .error (.duplicateField "__schema")
      else
        match deserialize_document v with
        | .ok d => schemaContainerGo (some d) rest
        | .error e => .error e
    else schemaContainerGo schema rest

/-- `SchemaContainer` deserialization entry: a non-object is an
invalid-type error. -/
def deserialize_schema_container : Json → Except DecodeError Document
  | .obj entries => schemaContainerGo none entries
  | _ => .error (.invalidType "struct SchemaContainer")

/-- The serde-derived deserializer for `ResponseContainer` (lib.rs 36-39):
one field `data` of type `SchemaContainer`. -/
def responseContainerGo (data : Option Document) :
    List (String × Json) → Except DecodeError Document
  | [] => require_field "data" data
  | (k, v) :: rest =>
    if k = "data" then
      if data.isSome then .error (.duplicateField "data")
      else
        match deserialize_schema_container v with
        | .ok d => responseContainerGo (some d) rest
        | .error e => .error e
    else responseContainerGo data rest

/-- `parse` (lib.rs 32-34), modelled from the JSON value that
`serde_json::from_str` feeds to `ResponseContainer`'s deserializer onward
(the text-level JSON grammar is serde_json's, outside this repository):
unwrap `{"data": {"__schema": ...}}` and build the `Document`. -/
def parse : Json → Except DecodeError Document
  | .obj entries => responseContainerGo none entries
  | _ => .error (.invalidType "struct ResponseContainer")

/-! ### Auxiliary notions used by the theorems -/

/-- The keys recognized by `DocumentVisitor::visit_map` (lib.rs 100-132). -/
def documentKeys : List String :=
  [QUERY_TYPE_ALIAS, MUTATION_TYPE_ALIAS, SUBSCRIPTION_TYPE_ALIAS,
   DIRECTIVES_ALIAS, TYPES_ALIAS]

/-- The keys recognized by `TypeDefinitionVisitor::visit_map`
(lib.rs 188-216). -/
def typeDefKeys : List String :=
  [KIND_ALIAS, NAME_ALIAS, DESCRIPTION_ALIAS, FIELDS_ALIAS, INPUT_FIELDS_ALIAS,
   INTERFACES_ALIAS, ENUM_VALUES_ALIAS, POSSIBLE_TYPES_ALIAS]

/-- The keys recognized by `FieldVisitor::visit_map` (lib.rs 341-365). -/
def fieldKeys : List String :=
  [NAME_ALIAS, DESCRIPTION_ALIAS, TYPE_ALIAS, ARGS_ALIAS, IS_DEPRECATED_ALIAS,
   DEPRECATION_REASON_ALIAS]

/-- The keys recognized by `InputValueVisitor::visit_map` (lib.rs 412-435). -/
def inputValueKeys : List String :=
  [NAME_ALIAS, DESCRIPTION_ALIAS, TYPE_ALIAS, DEFAULT_VALUE_ALIAS]

/-- The keys recognized by `EnumValueVisitor::visit_map` (lib.rs 558-576). -/
def enumValueKeys : List String :=
  [NAME_ALIAS, DESCRIPTION_ALIAS, IS_DEPRECATED_ALIAS, DEPRECATION_REASON_ALIAS]

/-- The keys recognized by `TypeRefVisitor::visit_map` (lib.rs 484-497). -/
def typeRefKeys : List String := [KIND_ALIAS, NAME_ALIAS, OF_TYPE_ALIAS]

/-- The structural keys each kind forbids, exactly the
`require_field_empty` calls of `TypeDefinitionVisitor::visit_map`
(lib.rs 221-301), which agree with the spec's §4.3 table. -/
def forbiddenKeys : TypeKind → List String
  | .Scalar => [FIELDS_ALIAS, INPUT_FIELDS_ALIAS, INTERFACES_ALIAS, POSSIBLE_TYPES_ALIAS]
  | .Object => [INPUT_FIELDS_ALIAS, POSSIBLE_TYPES_ALIAS]
  | .Interface => [INPUT_FIELDS_ALIAS, INTERFACES_ALIAS]
  | .Union => [FIELDS_ALIAS, INPUT_FIELDS_ALIAS, INTERFACES_ALIAS]
  | .Enum => [FIELDS_ALIAS, INPUT_FIELDS_ALIAS, INTERFACES_ALIAS, POSSIBLE_TYPES_ALIAS]
  | .InputObject => [FIELDS_ALIAS, INTERFACES_ALIAS, POSSIBLE_TYPES_ALIAS]

/-- The `kind` string literal for each `TypeKind` (lib.rs 619-633). -/
def kindLiteral : TypeKind → String
  | .Scalar => "SCALAR"
  | .Object => "OBJECT"
  | .Interface => "INTERFACE"
  | .Union => "UNION"
  | .Enum => "ENUM"
  | .InputObject => "INPUT_OBJECT"

/-- Is a definition the synthesized `SchemaDefinition`? -/
def isSchemaDef : Definition → Bool
  | .SchemaDefinition _ => true
  | .TypeDefinition _ => false

/-- The shape every successfully parsed document has: some list of type
definitions followed by exactly one `SchemaDefinition`. -/
def IsTypesThenSchema (doc : Document) : Prop :=
  ∃ (tds : List TypeDefinition) (sd : SchemaDefinition),
    doc.definitions =
      tds.map Definition.TypeDefinition ++ [Definition.SchemaDefinition sd]

/-- A decode result that is not a duplicate-field error. -/
def NoDupErr {α : Type} (r : Except DecodeError α) : Prop :=
  ∀ key, r ≠ .error (.duplicateField key)

/-! ## Theorems -/

/-- One iteration of the type-reference key loop is `typeRefStep`
followed by the loop on the remaining entries. -/
lemma typeRefGo_cons (st : TypeRefState) (e : String × Json)
    (rest : List (String × Json)) :
    typeRefGo st (e :: rest) =
      match typeRefStep st e with
      | .ok st' => typeRefGo st' rest
      | .error err => .error err := by
  obtain ⟨k, v⟩ := e
  rw [typeRefGo, typeRefStep]
  rcases eq_or_ne k KIND_ALIAS with rfl | h1
  · cases hx : decodeString v <;> simp [hx]
  · rcases eq_or_ne k NAME_ALIAS with rfl | h2
    · cases hx : decodeOptString v <;> simp [hx, NAME_ALIAS, KIND_ALIAS]
    · rcases eq_or_ne k OF_TYPE_ALIAS with rfl | h3
      · cases hn : v.isNull <;>
          [skip; simp [hn, OF_TYPE_ALIAS, KIND_ALIAS, NAME_ALIAS]]
        cases hd : deserialize_type_ref v <;>
          simp [hd, hn, OF_TYPE_ALIAS, KIND_ALIAS, NAME_ALIAS]
      · simp [h1, h2, h3, handle_unexpected_key]

/-- C3: the Type-Reference Decoder wraps a recursively decoded `ofType` as
`ListType` under kind `"LIST"` and as `NonNullType` under `"NON_NULL"`
(missing `ofType` being a missing-field error), and for any other kind
string produces `NamedType` from the `name` field (missing `name` being a
missing-field error); the nested NON_NULL/LIST/NON_NULL/SCALAR example
decodes to `NonNull(List(NonNull(Named "String")))`. -/
theorem C3_type_ref_decoder :
    (∀ w t, deserialize_type_ref w = .ok t →
      deserialize_type_ref (.obj [(KIND_ALIAS, .str "LIST"), (OF_TYPE_ALIAS, w)]) =
        .ok (.ListType t)) ∧
    (∀ w t, deserialize_type_ref w = .ok t →
      deserialize_type_ref (.obj [(KIND_ALIAS, .str "NON_NULL"), (OF_TYPE_ALIAS, w)]) =
        .ok (.NonNullType t)) ∧
    (deserialize_type_ref (.obj [(KIND_ALIAS, .str "LIST")]) =
      .error (.missingField OF_TYPE_ALIAS)) ∧
    (deserialize_type_ref (.obj [(KIND_ALIAS, .str "NON_NULL")]) =
      .error (.missingField OF_TYPE_ALIAS)) ∧
    (∀ s n, s ≠ "LIST" → s ≠ "NON_NULL" →
      deserialize_type_ref (.obj [(KIND_ALIAS, .str s), (NAME_ALIAS, .str n)]) =
        .ok (.NamedType n)) ∧
    (∀ s, s ≠ "LIST" → s ≠ "NON_NULL" →
      deserialize_type_ref (.obj [(KIND_ALIAS, .str s)]) =
        .error (.missingField NAME_ALIAS)) ∧
    (deserialize_type_ref (.obj [("kind", .str "NON_NULL"),
        ("ofType", .obj [("kind", .str "LIST"),
          ("ofType", .obj [("kind", .str "NON_NULL"),
            ("ofType", .obj [("kind", .str "SCALAR"), ("name", .str "String")])])])]) =
      .ok (.NonNullType (.ListType (.NonNullType (.NamedType "String"))))) := by
  refine ⟨?_, ?_, ?_, ?_, ?_, ?_, ?_⟩
  · intro w t h
    cases w <;>
      simp_all [deserialize_type_ref, typeRefGo, typeRefFinish, Json.isNull,
        decodeString, decodeOptString, KIND_ALIAS, NAME_ALIAS, OF_TYPE_ALIAS]
  · intro w t h
    cases w <;>
      simp_all [deserialize_type_ref, typeRefGo, typeRefFinish, Json.isNull,
        decodeString, decodeOptString, KIND_ALIAS, NAME_ALIAS, OF_TYPE_ALIAS]
  · decide
  · decide
  · intro s n hs hn
    simp [deserialize_type_ref, typeRefGo, typeRefFinish,
      decodeString, decodeOptString, KIND_ALIAS, NAME_ALIAS, OF_TYPE_ALIAS, hs, hn]
  · intro s hs hn
    simp [deserialize_type_ref, typeRefGo, typeRefFinish,
      decodeString, KIND_ALIAS, NAME_ALIAS, OF_TYPE_ALIAS, hs, hn]
  · decide

/-- Witness for C3 at concrete inputs: a `LIST` wrapping of a decoded
`SCALAR` reference, and a plain `SCALAR` named reference. -/
theorem C3_type_ref_decoder_witness :
    deserialize_type_ref (.obj [(KIND_ALIAS, .str "LIST"),
      (OF_TYPE_ALIAS, .obj [(KIND_ALIAS, .str "SCALAR"), (NAME_ALIAS, .str "Int")])]) =
      .ok (.ListType (.NamedType "Int")) ∧
    deserialize_type_ref (.obj [(KIND_ALIAS, .str "SCALAR"), (NAME_ALIAS, .str "Foo")]) =
      .ok (.NamedType "Foo") :=
  ⟨C3_type_ref_decoder.1 _ (.NamedType "Int") (by decide),
   C3_type_ref_decoder.2.2.2.2.1 "SCALAR" "Foo" (by decide) (by decide)⟩

/-- C4: root-type extraction on a first occurrence: `null` gives an absent
root, an object gives its `name` string (missing or non-string `name`
being a missing-field error), and any other JSON value is a type-mismatch
error; the all-roots-`null` schema parses to a `SchemaDefinition` with all
three roots absent. -/
theorem C4_root_type_extraction :
    (∀ a, deserialize_root_type none a .null = .ok none) ∧
    (∀ a entries n, jsonGet entries "name" = some (.str n) →
      deserialize_root_type none a (.obj entries) = .ok (some n)) ∧
    (∀ a entries, jsonGet entries "name" = none →
      deserialize_root_type none a (.obj entries) = .error (.missingField "name")) ∧
    (∀ a s, deserialize_root_type none a (.str s) = .error (.invalidType "object type")) ∧
    (∀ a n, deserialize_root_type none a (.num n) = .error (.invalidType "object type")) ∧
    (∀ a b, deserialize_root_type none a (.bool b) = .error (.invalidType "object type")) ∧
    (∀ a xs, deserialize_root_type none a (.arr xs) = .error (.invalidType "object type")) ∧
    (parse (.obj [("data", .obj [("__schema", .obj [("queryType", .null),
        ("mutationType", .null), ("subscriptionType", .null)])])]) =
      .ok ⟨[.SchemaDefinition ⟨none, none, none⟩]⟩) := by
  refine ⟨?_, ?_, ?_, ?_, ?_, ?_, ?_, ?_⟩
  · intro a; simp [deserialize_root_type]
  · intro a entries n h; simp [deserialize_root_type, h]
  · intro a entries h; simp [deserialize_root_type, h]
  · intro a s; simp [deserialize_root_type]
  · intro a n; simp [deserialize_root_type]
  · intro a b; simp [deserialize_root_type]
  · intro a xs; simp [deserialize_root_type]
  · decide

/-- Witness for C4 at concrete inputs: an object with a `name` string
yields the name; an object without `name` yields missing-field. -/
theorem C4_root_type_extraction_witness :
    deserialize_root_type none "queryType" (.obj [("name", .str "Query")]) =
      .ok (some "Query") ∧
    deserialize_root_type none "queryType" (.obj [("x", .null)]) =
      .error (.missingField "name") :=
  ⟨C4_root_type_extraction.2.1 "queryType" [("name", .str "Query")] "Query" rfl,
   C4_root_type_extraction.2.2.1 "queryType" [("x", .null)] rfl⟩

/-- Every state of the InputValue key loop finishes with
`default_value := none`. -/
lemma inputValueGo_default_none :
    ∀ (entries : List (String × Json)) (st : InputValueState) (iv : InputValue),
      inputValueGo st entries = .ok iv → iv.default_value = none := by
  intro entries
  induction entries with
  | nil =>
    intro st iv h
    cases hv : st.maybe_value_type <;> cases hn : st.name <;>
      simp [inputValueGo, inputValueFinish, require_field, hv, hn] at h
    rw [← h]
  | cons e rest ih =>
    intro st iv h
    cases hstep : inputValueStep st e with
    | ok st' =>
      exact ih st' iv (by simpa [inputValueGo, hstep] using h)
    | error err => simp [inputValueGo, hstep] at h

/-- C7: every successfully decoded InputValue has `default_value = none`,
whether or not a `defaultValue` key was present in the source. -/
theorem C7_default_value_always_none :
    ∀ j iv, deserialize_input_value j = .ok iv → iv.default_value = none := by
  intro j iv h
  cases j <;> simp [deserialize_input_value] at h
  exact inputValueGo_default_none _ _ _ h

/-- Witness for C7: a concrete InputValue carrying a `defaultValue` key
still decodes with `default_value = none`. -/
theorem C7_default_value_always_none_witness :
    deserialize_input_value (.obj [("name", .str "arg"),
        ("type", .obj [("kind", .str "SCALAR"), ("name", .str "Int")]),
        ("defaultValue", .str "3")]) =
      .ok ⟨none, "arg", .NamedType "Int", none⟩ ∧
    (⟨none, "arg", .NamedType "Int", none⟩ : InputValue).default_value = none := by
  have h : deserialize_input_value (.obj [("name", .str "arg"),
      ("type", .obj [("kind", .str "SCALAR"), ("name", .str "Int")]),
      ("defaultValue", .str "3")]) =
      .ok ⟨none, "arg", .NamedType "Int", none⟩ := by decide
  exact ⟨h, C7_default_value_always_none _ _ h⟩

/-- C1 counterexample: a `__schema` object in which `queryType` occurs
twice, both times `null`, parses successfully — contradicting the claim
that any repeated root-type key fails with a duplicate-field error
regardless of the values attached. -/
theorem C1_counterexample_null_duplicate :
    parse (.obj [("data", .obj [("__schema", .obj [("queryType", .null),
        ("queryType", .null)])])]) =
      .ok ⟨[.SchemaDefinition ⟨none, none, none⟩]⟩ := by
  decide

/-- C1 (amended): a repeated root-type key is a duplicate-field error
naming that key exactly when an earlier occurrence stored a root name
(i.e. was a non-null object): with a previously stored name every further
occurrence errors; after only `null` occurrences the key is processed
again without error, a later object occurrence supplying the name. -/
theorem C1_duplicate_root_key_amended :
    (∀ a v n, deserialize_root_type (some n) a v = .error (.duplicateField a)) ∧
    (parse (.obj [("data", .obj [("__schema", .obj [
        ("queryType", .obj [("name", .str "Q")]), ("queryType", .null)])])]) =
      .error (.duplicateField "queryType")) ∧
    (parse (.obj [("data", .obj [("__schema", .obj [
        ("queryType", .null), ("queryType", .null)])])]) =
      .ok ⟨[.SchemaDefinition ⟨none, none, none⟩]⟩) ∧
    (parse (.obj [("data", .obj [("__schema", .obj [
        ("queryType", .null), ("queryType", .obj [("name", .str "Q")])])])]) =
      .ok ⟨[.SchemaDefinition ⟨some "Q", none, none⟩]⟩) := by
  refine ⟨?_, ?_, ?_, ?_⟩
  · intro a v n; simp [deserialize_root_type]
  · decide
  · decide
  · decide

/-- C2: for each kind, supplying a forbidden structural key (per the
source's `require_field_empty` table) with a non-null array value fails
with an unknown-field error naming that key, while a permitted structural
key that is simply absent defaults to the empty sequence. -/
theorem C2_forbidden_and_defaults :
    (∀ tk fk (n : String), fk ∈ forbiddenKeys tk →
      deserialize_type_definition (.obj [(KIND_ALIAS, .str (kindLiteral tk)),
        (NAME_ALIAS, .str n), (fk, .arr [])]) = .error (.unknownField fk)) ∧
    (∀ n : String,
      deserialize_type_definition (.obj [(KIND_ALIAS, .str "SCALAR"), (NAME_ALIAS, .str n)]) =
        .ok (.Scalar ⟨none, n⟩)) ∧
    (∀ n : String,
      deserialize_type_definition (.obj [(KIND_ALIAS, .str "OBJECT"), (NAME_ALIAS, .str n)]) =
        .ok (.Object ⟨none, n, [], []⟩)) ∧
    (∀ n : String,
      deserialize_type_definition (.obj [(KIND_ALIAS, .str "INTERFACE"), (NAME_ALIAS, .str n)]) =
        .ok (.Interface ⟨none, n, []⟩)) ∧
    (∀ n : String,
      deserialize_type_definition (.obj [(KIND_ALIAS, .str "UNION"), (NAME_ALIAS, .str n)]) =
        .ok (.Union ⟨none, n, []⟩)) ∧
    (∀ n : String,
      deserialize_type_definition (.obj [(KIND_ALIAS, .str "ENUM"), (NAME_ALIAS, .str n)]) =
        .ok (.Enum ⟨none, n, []⟩)) ∧
    (∀ n : String,
      deserialize_type_definition (.obj [(KIND_ALIAS, .str "INPUT_OBJECT"), (NAME_ALIAS, .str n)]) =
        .ok (.InputObject ⟨none, n, []⟩)) := by
  refine ⟨?_, ?_, ?_, ?_, ?_, ?_, ?_⟩
  · intro tk fk n hmem
    cases tk <;>
      simp only [forbiddenKeys, List.mem_cons, List.not_mem_nil, or_false] at hmem <;>
      rcases hmem with rfl | rfl | rfl | rfl <;>
      simp [deserialize_type_definition, typeDefGo, typeDefStep, typeDefFinish,
        TypeDefState.initial, decodeTypeKind, decodeString, deserialize_array,
        decodeList, require_field, require_field_empty, kindLiteral,
        KIND_ALIAS, NAME_ALIAS, DESCRIPTION_ALIAS, FIELDS_ALIAS,
        INPUT_FIELDS_ALIAS, INTERFACES_ALIAS, ENUM_VALUES_ALIAS,
        POSSIBLE_TYPES_ALIAS]
  all_goals
    intro n
  all_goals
    simp [deserialize_type_definition, typeDefGo, typeDefStep, typeDefFinish,
        TypeDefState.initial, decodeTypeKind, decodeString,
        require_field, require_field_empty,
        KIND_ALIAS, NAME_ALIAS, DESCRIPTION_ALIAS, FIELDS_ALIAS,
        INPUT_FIELDS_ALIAS, INTERFACES_ALIAS, ENUM_VALUES_ALIAS,
        POSSIBLE_TYPES_ALIAS]

/-- Witness for C2 at concrete inputs: a SCALAR with a supplied `fields`
array fails naming `fields`; an OBJECT with neither `fields` nor
`interfaces` decodes with both collections empty. -/
theorem C2_forbidden_and_defaults_witness :
    deserialize_type_definition (.obj [(KIND_ALIAS, .str "SCALAR"),
      (NAME_ALIAS, .str "T"), (FIELDS_ALIAS, .arr [])]) =
      .error (.unknownField FIELDS_ALIAS) ∧
    deserialize_type_definition (.obj [(KIND_ALIAS, .str "OBJECT"),
      (NAME_ALIAS, .str "T")]) = .ok (.Object ⟨none, "T", [], []⟩) :=
  ⟨C2_forbidden_and_defaults.1 .Scalar FIELDS_ALIAS "T" (by decide),
   C2_forbidden_and_defaults.2.2.1 "T"⟩

/-- A successful `documentStep` preserves the invariant that the `types`
accumulator is a list of type definitions. -/
lemma documentStep_types_shape (st : DocumentState) (e : String × Json)
    (st' : DocumentState) (hstep : documentStep st e = .ok st')
    (hshape : ∃ tds : List TypeDefinition,
      st.types = tds.map Definition.TypeDefinition) :
    ∃ tds : List TypeDefinition,
      st'.types = tds.map Definition.TypeDefinition := by
  obtain ⟨k, v⟩ := e
  obtain ⟨tds, htds⟩ := hshape
  rcases eq_or_ne k QUERY_TYPE_ALIAS with rfl | h1
  · simp only [documentStep, if_pos rfl] at hstep
    cases hr : deserialize_root_type st.query_type QUERY_TYPE_ALIAS v <;>
      simp [hr] at hstep
    exact ⟨tds, by rw [← hstep]; exact htds⟩
  rcases eq_or_ne k MUTATION_TYPE_ALIAS with rfl | h2
  · simp only [documentStep, if_neg h1, if_pos rfl] at hstep
    cases hr : deserialize_root_type st.mutation_type MUTATION_TYPE_ALIAS v <;>
      simp [hr] at hstep
    exact ⟨tds, by rw [← hstep]; exact htds⟩
  rcases eq_or_ne k SUBSCRIPTION_TYPE_ALIAS with rfl | h3
  · simp only [documentStep, if_neg h1, if_neg h2, if_pos rfl] at hstep
    cases hr : deserialize_root_type st.subscription_type SUBSCRIPTION_TYPE_ALIAS v <;>
      simp [hr] at hstep
    exact ⟨tds, by rw [← hstep]; exact htds⟩
  rcases eq_or_ne k DIRECTIVES_ALIAS with rfl | h4
  · simp only [documentStep, if_neg h1, if_neg h2, if_neg h3, if_pos rfl,
      if_true, Except.ok.injEq] at hstep
    exact ⟨tds, by rw [← hstep]; exact htds⟩
  rcases eq_or_ne k TYPES_ALIAS with rfl | h5
  · simp only [documentStep, if_neg h1, if_neg h2, if_neg h3, if_neg h4,
      if_pos rfl] at hstep
    cases v <;> simp at hstep
    rename_i xs
    cases hds : decodeList deserialize_type_definition xs <;> simp [hds] at hstep
    rename_i ds
    exact ⟨ds, by rw [← hstep]⟩
  · simp only [documentStep, if_neg h1, if_neg h2, if_neg h3, if_neg h4,
      if_neg h5, handle_unexpected_key, Except.ok.injEq] at hstep
    exact ⟨tds, by rw [← hstep]; exact htds⟩

/-- The document key loop started from a `types` accumulator that is a
list of type definitions only produces documents of the shape "type
definitions, then one `SchemaDefinition`". -/
lemma documentGo_shape :
    ∀ (entries : List (String × Json)) (st : DocumentState) (doc : Document),
      (∃ tds : List TypeDefinition,
        st.types = tds.map Definition.TypeDefinition) →
      documentGo st entries = .ok doc → IsTypesThenSchema doc := by
  intro entries
  induction entries with
  | nil =>
    intro st doc hshape h
    obtain ⟨tds, htds⟩ := hshape
    simp only [documentGo, Except.ok.injEq] at h
    refine ⟨tds, ⟨st.query_type, st.mutation_type, st.subscription_type⟩, ?_⟩
    rw [← h]
    simp [documentFinish, htds]
  | cons e rest ih =>
    intro st doc hshape h
    cases hstep : documentStep st e with
    | error err => simp [documentGo, hstep] at h
    | ok st' =>
      exact ih st' doc (documentStep_types_shape st e st' hstep hshape)
        (by simpa [documentGo, hstep] using h)

/-- `deserialize_document` only produces documents of the
types-then-schema shape. -/
lemma deserialize_document_shape (j : Json) (doc : Document)
    (h : deserialize_document j = .ok doc) : IsTypesThenSchema doc := by
  cases j <;> simp [deserialize_document] at h
  exact documentGo_shape _ _ _ ⟨[], rfl⟩ h

/-- The `SchemaContainer` field loop only produces documents of the
types-then-schema shape (assuming any already-stored document has it). -/
lemma schemaContainerGo_shape :
    ∀ (entries : List (String × Json)) (data : Option Document) (doc : Document),
      (∀ d, data = some d → IsTypesThenSchema d) →
      schemaContainerGo data entries = .ok doc → IsTypesThenSchema doc := by
  intro entries
  induction entries with
  | nil =>
    intro data doc hdata h
    cases data with
    | none => simp [schemaContainerGo, require_field] at h
    | some d =>
      simp [schemaContainerGo, require_field] at h
      exact h ▸ hdata d rfl
  | cons e rest ih =>
    intro data doc hdata h
    obtain ⟨k, v⟩ := e
    by_cases hk : k = "__schema"
    · subst hk
      rw [schemaContainerGo] at h
      simp only [if_pos rfl] at h
      cases data with
      | some d => simp at h
      | none =>
        cases hdec : deserialize_document v with
        | error err => simp [hdec] at h
        | ok d =>
          simp only [hdec, Option.isSome_none, Bool.false_eq_true,
            if_false] at h
          exact ih (some d) doc
            (fun x hx => by cases hx; exact deserialize_document_shape v d hdec) h
    · rw [schemaContainerGo] at h
      simp only [if_neg hk] at h
      exact ih data doc hdata h

/-- `deserialize_schema_container` only produces documents of the
types-then-schema shape. -/
lemma deserialize_schema_container_shape (j : Json) (doc : Document)
    (h : deserialize_schema_container j = .ok doc) : IsTypesThenSchema doc := by
  cases j <;> simp [deserialize_schema_container] at h
  exact schemaContainerGo_shape _ none doc (by intro d hd; cases hd) h

/-- The `ResponseContainer` field loop only produces documents of the
types-then-schema shape (assuming any already-stored document has it). -/
lemma responseContainerGo_shape :
    ∀ (entries : List (String × Json)) (data : Option Document) (doc : Document),
      (∀ d, data = some d → IsTypesThenSchema d) →
      responseContainerGo data entries = .ok doc → IsTypesThenSchema doc := by
  intro entries
  induction entries with
  | nil =>
    intro data doc hdata h
    cases data with
    | none => simp [responseContainerGo, require_field] at h
    | some d =>
      simp [responseContainerGo, require_field] at h
      exact h ▸ hdata d rfl
  | cons e rest ih =>
    intro data doc hdata h
    obtain ⟨k, v⟩ := e
    by_cases hk : k = "data"
    · subst hk
      rw [responseContainerGo] at h
      simp only [if_pos rfl] at h
      cases data with
      | some d => simp at h
      | none =>
        cases hdec : deserialize_schema_container v with
        | error err => simp [hdec] at h
        | ok d =>
          simp only [hdec, Option.isSome_none, Bool.false_eq_true,
            if_false] at h
          exact ih (some d) doc
            (fun x hx => by
              cases hx
              exact deserialize_schema_container_shape v d hdec) h
    · rw [responseContainerGo] at h
      simp only [if_neg hk] at h
      exact ih data doc hdata h

/-- The count of `SchemaDefinition`s in a types-then-schema document is
exactly one. -/
lemma isTypesThenSchema_count (doc : Document) (h : IsTypesThenSchema doc) :
    doc.definitions.countP isSchemaDef = 1 := by
  obtain ⟨tds, sd, hdef⟩ := h
  rw [hdef, List.countP_append]
  have hzero : (tds.map Definition.TypeDefinition).countP isSchemaDef = 0 := by
    induction tds with
    | nil => rfl
    | cons t ts iht => simp [List.countP_cons, isSchemaDef, iht]
  simp [hzero, List.countP_cons, isSchemaDef]

/-- C5: every successfully parsed document consists of the decoded type
definitions followed by exactly one synthesized `SchemaDefinition` as the
final element (so each document contains exactly one `SchemaDefinition`),
and the type definitions appear in the source `types`-array order. -/
theorem C5_document_shape :
    (∀ j doc, parse j = .ok doc → IsTypesThenSchema doc) ∧
    (∀ j doc, parse j = .ok doc → doc.definitions.countP isSchemaDef = 1) ∧
    (∀ xs ds, decodeList deserialize_type_definition xs = .ok ds →
      deserialize_document (.obj [(TYPES_ALIAS, .arr xs)]) =
        .ok ⟨ds.map Definition.TypeDefinition ++
          [.SchemaDefinition ⟨none, none, none⟩]⟩) := by
  have hparse : ∀ j doc, parse j = .ok doc → IsTypesThenSchema doc := by
    intro j doc h
    cases j <;> simp [parse] at h
    exact responseContainerGo_shape _ none doc (by intro d hd; cases hd) h
  refine ⟨hparse, ?_, ?_⟩
  · intro j doc h
    exact isTypesThenSchema_count doc (hparse j doc h)
  · intro xs ds h
    simp [deserialize_document, documentGo, documentStep, documentFinish, h,
      QUERY_TYPE_ALIAS, MUTATION_TYPE_ALIAS, SUBSCRIPTION_TYPE_ALIAS,
      DIRECTIVES_ALIAS, TYPES_ALIAS]

/-- Witness for C5 at a concrete introspection value with one SCALAR type:
the parsed document is that type definition followed by the one
`SchemaDefinition`, whose count is 1; the `types`-order conjunct applied
to the singleton array. -/
theorem C5_document_shape_witness :
    IsTypesThenSchema ⟨[.TypeDefinition (.Scalar ⟨none, "S"⟩),
      .SchemaDefinition ⟨none, none, none⟩]⟩ ∧
    (Document.mk [.TypeDefinition (.Scalar ⟨none, "S"⟩),
      .SchemaDefinition ⟨none, none, none⟩]).definitions.countP isSchemaDef = 1 ∧
    deserialize_document (.obj [(TYPES_ALIAS,
        .arr [.obj [(KIND_ALIAS, .str "SCALAR"), (NAME_ALIAS, .str "S")]])]) =
      .ok ⟨[.TypeDefinition (.Scalar ⟨none, "S"⟩),
        .SchemaDefinition ⟨none, none, none⟩]⟩ := by
  have hin : parse (.obj [("data", .obj [("__schema", .obj [(TYPES_ALIAS,
      .arr [.obj [(KIND_ALIAS, .str "SCALAR"), (NAME_ALIAS, .str "S")]])])])]) =
      .ok ⟨[.TypeDefinition (.Scalar ⟨none, "S"⟩),
        .SchemaDefinition ⟨none, none, none⟩]⟩ := by decide
  refine ⟨C5_document_shape.1 _ _ hin, C5_document_shape.2.1 _ _ hin, ?_⟩
  exact C5_document_shape.2.2
    [.obj [(KIND_ALIAS, .str "SCALAR"), (NAME_ALIAS, .str "S")]]
    [.Scalar ⟨none, "S"⟩] (by decide)

/-- C6: at every level, a key not recognized by the respective visitor is
consumed and ignored: the loop continues on the remaining entries exactly
as if the entry were absent, so decoding never fails on an unknown key; a
type-definition object with an extra `extensions` key alongside valid
OBJECT fields decodes successfully. -/
theorem C6_unknown_keys_tolerated :
    (∀ st k v rest, k ∉ documentKeys →
      documentGo st ((k, v) :: rest) = documentGo st rest) ∧
    (∀ st k v rest, k ∉ typeDefKeys →
      typeDefGo st ((k, v) :: rest) = typeDefGo st rest) ∧
    (∀ st k v rest, k ∉ fieldKeys →
      fieldGo st ((k, v) :: rest) = fieldGo st rest) ∧
    (∀ st k v rest, k ∉ inputValueKeys →
      inputValueGo st ((k, v) :: rest) = inputValueGo st rest) ∧
    (∀ st k v rest, k ∉ enumValueKeys →
      enumValueGo st ((k, v) :: rest) = enumValueGo st rest) ∧
    (∀ st k v rest, k ∉ typeRefKeys →
      typeRefGo st ((k, v) :: rest) = typeRefGo st rest) ∧
    (deserialize_type_definition (.obj [(KIND_ALIAS, .str "OBJECT"),
        (NAME_ALIAS, .str "T"), ("extensions", .obj [("a", .num 1)]),
        (FIELDS_ALIAS, .arr [])]) =
      .ok (.Object ⟨none, "T", [], []⟩)) := by
  refine ⟨?_, ?_, ?_, ?_, ?_, ?_, ?_⟩
  · intro st k v rest hk
    simp only [documentKeys, QUERY_TYPE_ALIAS, MUTATION_TYPE_ALIAS,
      SUBSCRIPTION_TYPE_ALIAS, DIRECTIVES_ALIAS, TYPES_ALIAS, List.mem_cons,
      List.not_mem_nil, or_false, not_or] at hk
    obtain ⟨h1, h2, h3, h4, h5⟩ := hk
    simp [documentGo, documentStep, h1, h2, h3, h4, h5, handle_unexpected_key,
      QUERY_TYPE_ALIAS, MUTATION_TYPE_ALIAS, SUBSCRIPTION_TYPE_ALIAS,
      DIRECTIVES_ALIAS, TYPES_ALIAS]
  · intro st k v rest hk
    simp only [typeDefKeys, KIND_ALIAS, NAME_ALIAS, DESCRIPTION_ALIAS,
      FIELDS_ALIAS, INPUT_FIELDS_ALIAS, INTERFACES_ALIAS, ENUM_VALUES_ALIAS,
      POSSIBLE_TYPES_ALIAS, List.mem_cons, List.not_mem_nil, or_false,
      not_or] at hk
    obtain ⟨h1, h2, h3, h4, h5, h6, h7, h8⟩ := hk
    simp [typeDefGo, typeDefStep, h1, h2, h3, h4, h5, h6, h7, h8,
      handle_unexpected_key, KIND_ALIAS, NAME_ALIAS, DESCRIPTION_ALIAS,
      FIELDS_ALIAS, INPUT_FIELDS_ALIAS, INTERFACES_ALIAS, ENUM_VALUES_ALIAS,
      POSSIBLE_TYPES_ALIAS]
  · intro st k v rest hk
    simp only [fieldKeys, NAME_ALIAS, DESCRIPTION_ALIAS, TYPE_ALIAS, ARGS_ALIAS,
      IS_DEPRECATED_ALIAS, DEPRECATION_REASON_ALIAS, List.mem_cons,
      List.not_mem_nil, or_false, not_or] at hk
    obtain ⟨h1, h2, h3, h4, h5, h6⟩ := hk
    simp [fieldGo, fieldStep, h1, h2, h3, h4, h5, h6, handle_unexpected_key,
      NAME_ALIAS, DESCRIPTION_ALIAS, TYPE_ALIAS, ARGS_ALIAS, IS_DEPRECATED_ALIAS,
      DEPRECATION_REASON_ALIAS]
  · intro st k v rest hk
    simp only [inputValueKeys, NAME_ALIAS, DESCRIPTION_ALIAS, TYPE_ALIAS,
      DEFAULT_VALUE_ALIAS, List.mem_cons, List.not_mem_nil, or_false,
      not_or] at hk
    obtain ⟨h1, h2, h3, h4⟩ := hk
    simp [inputValueGo, inputValueStep, h1, h2, h3, h4, handle_unexpected_key,
      NAME_ALIAS, DESCRIPTION_ALIAS, TYPE_ALIAS, DEFAULT_VALUE_ALIAS]
  · intro st k v rest hk
    simp only [enumValueKeys, NAME_ALIAS, DESCRIPTION_ALIAS, IS_DEPRECATED_ALIAS,
      DEPRECATION_REASON_ALIAS, List.mem_cons, List.not_mem_nil, or_false,
      not_or] at hk
    obtain ⟨h1, h2, h3, h4⟩ := hk
    simp [enumValueGo, enumValueStep, h1, h2, h3, h4, handle_unexpected_key,
      NAME_ALIAS, DESCRIPTION_ALIAS, IS_DEPRECATED_ALIAS, DEPRECATION_REASON_ALIAS]
  · intro st k v rest hk
    simp only [typeRefKeys, KIND_ALIAS, NAME_ALIAS, OF_TYPE_ALIAS, List.mem_cons,
      List.not_mem_nil, or_false, not_or] at hk
    obtain ⟨h1, h2, h3⟩ := hk
    rw [typeRefGo_cons]
    simp [typeRefStep, h1, h2, h3, handle_unexpected_key, KIND_ALIAS,
      NAME_ALIAS, OF_TYPE_ALIAS]
  · decide

/-- Witness for C6: the unrecognized key `"wat"` is skipped by the
document loop and by the type-reference loop at concrete states. -/
theorem C6_unknown_keys_tolerated_witness :
    documentGo ⟨none, none, none, []⟩ [("wat", .num 1)] =
      documentGo ⟨none, none, none, []⟩ [] ∧
    typeRefGo ⟨none, none, none⟩ [("wat", .num 1)] =
      typeRefGo ⟨none, none, none⟩ [] :=
  ⟨C6_unknown_keys_tolerated.1 ⟨none, none, none, []⟩ "wat" (.num 1) [] (by decide),
   C6_unknown_keys_tolerated.2.2.2.2.2.1 ⟨none, none, none⟩ "wat" (.num 1) [] (by decide)⟩

/-- C9: parse is a pure function of its input: equal input texts give
structurally equal results — no hidden mutable or global state can
influence the output of the embedded decoder. -/
theorem C9_parse_deterministic :
    ∀ s t : Json, s = t → parse s = parse t := by
  intro s t h
  rw [h]

/-- Witness for C9: two runs of `parse` on the same concrete introspection
value produce the same result. -/
theorem C9_parse_deterministic_witness :
    parse (.obj [("data", .obj [("__schema", .obj [("queryType", .null)])])]) =
      parse (.obj [("data", .obj [("__schema", .obj [("queryType", .null)])])]) :=
  C9_parse_deterministic _ _ rfl

/-- `decodeString` never reports a duplicate field. -/
lemma decodeString_noDup (v : Json) (key : String) :
    decodeString v ≠ .error (.duplicateField key) := by
  cases v <;> simp [decodeString]

/-- `decodeOptString` never reports a duplicate field. -/
lemma decodeOptString_noDup (v : Json) (key : String) :
    decodeOptString v ≠ .error (.duplicateField key) := by
  cases v <;> simp [decodeOptString]

/-- `decodeOptJson` never fails at all. -/
lemma decodeOptJson_noDup (v : Json) (key : String) :
    decodeOptJson v ≠ .error (.duplicateField key) := by
  cases v <;> simp [decodeOptJson]

/-- `decodeTypeKind` never reports a duplicate field. -/
lemma decodeTypeKind_noDup (v : Json) (key : String) :
    decodeTypeKind v ≠ .error (.duplicateField key) := by
  intro h
  rw [decodeTypeKind.eq_def] at h
  split at h <;> simp_all

/-- The final dispatch of the type-reference visitor never reports a
duplicate field (its only errors are missing fields). -/
lemma typeRefFinish_noDup (st : TypeRefState) (key : String) :
    typeRefFinish st ≠ .error (.duplicateField key) := by
  intro h
  rw [typeRefFinish.eq_def] at h
  split at h
  · simp at h
  · split at h
    · split at h <;> simp_all
    · split at h
      · split at h <;> simp_all
      · split at h <;> simp_all

/-- Neither the type-reference decoder nor its key loop ever reports a
duplicate-field error, whatever the input. -/
lemma typeRef_noDup :
    (∀ j key, deserialize_type_ref j ≠ .error (.duplicateField key)) ∧
    (∀ st entries key, typeRefGo st entries ≠ .error (.duplicateField key)) := by
  have H := typeRefGo.induct
    (fun j => ∀ key, deserialize_type_ref j ≠ .error (.duplicateField key))
    (fun st entries => ∀ key, typeRefGo st entries ≠ .error (.duplicateField key))
  have main : ∀ st entries key,
      typeRefGo st entries ≠ .error (.duplicateField key) := by
    refine H ?_ ?_ ?_ ?_ ?_ ?_ ?_ ?_ ?_ ?_ ?_ ?_
    · intro entries hgo key h
      rw [deserialize_type_ref] at h
      exact hgo key h
    · intro t hnotobj key h
      cases t <;> simp [deserialize_type_ref] at h
      exact hnotobj _ rfl
    · intro st key h
      rw [typeRefGo] at h
      exact typeRefFinish_noDup st key h
    · intro st v rest s hs ih key h
      rw [typeRefGo_cons] at h
      simp [typeRefStep, hs, KIND_ALIAS] at h
      exact ih key h
    · intro st v rest e he key h
      rw [typeRefGo_cons] at h
      simp [typeRefStep, he, KIND_ALIAS] at h
      exact decodeString_noDup v key (h ▸ he)
    · intro st v rest n hn _ ih key h
      rw [typeRefGo_cons] at h
      simp [typeRefStep, hn, NAME_ALIAS, KIND_ALIAS] at h
      exact ih key h
    · intro st v rest e he _ key h
      rw [typeRefGo_cons] at h
      simp [typeRefStep, he, NAME_ALIAS, KIND_ALIAS] at h
      exact decodeOptString_noDup v key (h ▸ he)
    · intro st v rest hnull _ _ ih key h
      rw [typeRefGo_cons] at h
      simp [typeRefStep, hnull, OF_TYPE_ALIAS, KIND_ALIAS, NAME_ALIAS] at h
      exact ih key h
    · intro st v rest hnull t ht _ _ ihv ih key h
      rw [typeRefGo_cons] at h
      simp [typeRefStep, hnull, ht, OF_TYPE_ALIAS, KIND_ALIAS, NAME_ALIAS] at h
      exact ih key h
    · intro st v rest hnull e he _ _ ihv key h
      rw [typeRefGo_cons] at h
      simp [typeRefStep, hnull, he, OF_TYPE_ALIAS, KIND_ALIAS, NAME_ALIAS] at h
      exact ihv key (h ▸ he)
    · intro st k v rest h1 h2 h3 a ha ih key h
      rw [typeRefGo_cons] at h
      simp [typeRefStep, h1, h2, h3, handle_unexpected_key] at h
      exact ih key h
    · intro st k v rest h1 h2 h3 e he
      simp [handle_unexpected_key] at he
  refine ⟨?_, main⟩
  intro j key h
  cases j <;> simp [deserialize_type_ref] at h
  exact main _ _ key h

/-- Processing a recognized type-definition key twice: the state written
by the first occurrence is invisible to the second, which overwrites the
same field. -/
lemma typeDefStep_overwrite (st : TypeDefState) (k : String) (v1 v2 : Json)
    (st' : TypeDefState) (hk : k ∈ typeDefKeys)
    (hstep : typeDefStep st (k, v1) = .ok st') :
    typeDefStep st' (k, v2) = typeDefStep st (k, v2) := by
  simp only [typeDefKeys, List.mem_cons, List.not_mem_nil, or_false] at hk
  rcases hk with rfl | rfl | rfl | rfl | rfl | rfl | rfl | rfl
  all_goals
    simp [typeDefStep, KIND_ALIAS, NAME_ALIAS, DESCRIPTION_ALIAS, FIELDS_ALIAS,
      INPUT_FIELDS_ALIAS, INTERFACES_ALIAS, ENUM_VALUES_ALIAS,
      POSSIBLE_TYPES_ALIAS] at hstep
  all_goals
    first
      | (subst hstep; rfl)
      | (split at hstep
         · injection hstep with h
           subst h
           rfl
         · exact absurd hstep (by simp))
      | (split at hstep
         · injection hstep with h
           subst h
           rfl
         · split at hstep
           · injection hstep with h
             subst h
             rfl
           · exact absurd hstep (by simp))

/-- Processing a recognized field key twice: the second occurrence
overwrites the first. -/
lemma fieldStep_overwrite (st : FieldState) (k : String) (v1 v2 : Json)
    (st' : FieldState) (hk : k ∈ fieldKeys)
    (hstep : fieldStep st (k, v1) = .ok st') :
    fieldStep st' (k, v2) = fieldStep st (k, v2) := by
  simp only [fieldKeys, List.mem_cons, List.not_mem_nil, or_false] at hk
  rcases hk with rfl | rfl | rfl | rfl | rfl | rfl
  all_goals
    simp [fieldStep, NAME_ALIAS, DESCRIPTION_ALIAS, TYPE_ALIAS, ARGS_ALIAS,
      IS_DEPRECATED_ALIAS, DEPRECATION_REASON_ALIAS] at hstep
  all_goals
    first
      | (subst hstep; rfl)
      | (split at hstep
         · injection hstep with h
           subst h
           rfl
         · exact absurd hstep (by simp))
      | (split at hstep
         · injection hstep with h
           subst h
           rfl
         · split at hstep
           · injection hstep with h
             subst h
             rfl
           · exact absurd hstep (by simp))

/-- Processing a recognized InputValue key twice: the second occurrence
overwrites the first. -/
lemma inputValueStep_overwrite (st : InputValueState) (k : String) (v1 v2 : Json)
    (st' : InputValueState) (hk : k ∈ inputValueKeys)
    (hstep : inputValueStep st (k, v1) = .ok st') :
    inputValueStep st' (k, v2) = inputValueStep st (k, v2) := by
  simp only [inputValueKeys, List.mem_cons, List.not_mem_nil, or_false] at hk
  rcases hk with rfl | rfl | rfl | rfl
  all_goals
    simp [inputValueStep, NAME_ALIAS, DESCRIPTION_ALIAS, TYPE_ALIAS,
      DEFAULT_VALUE_ALIAS] at hstep
  all_goals
    first
      | (subst hstep; rfl)
      | (split at hstep
         · injection hstep with h
           subst h
           rfl
         · exact absurd hstep (by simp))
      | (split at hstep
         · injection hstep with h
           subst h
           rfl
         · split at hstep
           · injection hstep with h
             subst h
             rfl
           · exact absurd hstep (by simp))

/-- Processing a recognized EnumValue key twice: the second occurrence
overwrites the first. -/
lemma enumValueStep_overwrite (st : EnumValueState) (k : String) (v1 v2 : Json)
    (st' : EnumValueState) (hk : k ∈ enumValueKeys)
    (hstep : enumValueStep st (k, v1) = .ok st') :
    enumValueStep st' (k, v2) = enumValueStep st (k, v2) := by
  simp only [enumValueKeys, List.mem_cons, List.not_mem_nil, or_false] at hk
  rcases hk with rfl | rfl | rfl | rfl
  all_goals
    simp [enumValueStep, NAME_ALIAS, DESCRIPTION_ALIAS, IS_DEPRECATED_ALIAS,
      DEPRECATION_REASON_ALIAS] at hstep
  all_goals
    first
      | (subst hstep; rfl)
      | (split at hstep
         · injection hstep with h
           subst h
           rfl
         · exact absurd hstep (by simp))
      | (split at hstep
         · injection hstep with h
           subst h
           rfl
         · split at hstep
           · injection hstep with h
             subst h
             rfl
           · exact absurd hstep (by simp))

/-- Processing a recognized type-reference key twice: the second
occurrence overwrites the first. -/
lemma typeRefStep_overwrite (st : TypeRefState) (k : String) (v1 v2 : Json)
    (st' : TypeRefState) (hk : k ∈ typeRefKeys)
    (hstep : typeRefStep st (k, v1) = .ok st') :
    typeRefStep st' (k, v2) = typeRefStep st (k, v2) := by
  simp only [typeRefKeys, List.mem_cons, List.not_mem_nil, or_false] at hk
  rcases hk with rfl | rfl | rfl
  all_goals
    simp [typeRefStep, KIND_ALIAS, NAME_ALIAS, OF_TYPE_ALIAS] at hstep
  all_goals
    first
      | (subst hstep; rfl)
      | (split at hstep
         · injection hstep with h
           subst h
           rfl
         · exact absurd hstep (by simp))
      | (split at hstep
         · injection hstep with h
           subst h
           rfl
         · split at hstep
           · injection hstep with h
             subst h
             rfl
           · exact absurd hstep (by simp))

/-- `require_field` never reports a duplicate field. -/
lemma require_field_noDup {α : Type} (k0 : String) (f : Option α)
    (key : String) : require_field k0 f ≠ .error (.duplicateField key) := by
  cases f <;> simp [require_field]

/-- `require_field_empty` never reports a duplicate field. -/
lemma require_field_empty_noDup {α : Type} (k0 : String) (f : Option α)
    (key : String) : require_field_empty k0 f ≠ .error (.duplicateField key) := by
  cases f <;> simp [require_field_empty]

/-- The named-type decoder never reports a duplicate field. -/
lemma decodeNamedType_noDup (v : Json) (key : String) :
    decodeNamedType v ≠ .error (.duplicateField key) := by
  intro h
  cases hd : deserialize_type_ref v with
  | ok t => cases t <;> simp [decodeNamedType, hd] at h
  | error e =>
    simp [decodeNamedType, hd] at h
    exact typeRef_noDup.1 v key (h ▸ hd)

/-- `deserialize_value` preserves freedom from duplicate-field errors. -/
lemma deserialize_value_noDup {α : Type} (dec : Json → Except DecodeError α)
    (hdec : ∀ j key, dec j ≠ .error (.duplicateField key)) (v : Json)
    (key : String) : deserialize_value dec v ≠ .error (.duplicateField key) := by
  intro h
  cases hd : dec v with
  | ok x => cases v <;> simp [deserialize_value, hd] at h
  | error e =>
    cases v <;> simp [deserialize_value, hd] at h <;>
      exact hdec _ key (h ▸ hd)

/-- `decodeList` preserves freedom from duplicate-field errors. -/
lemma decodeList_noDup {α : Type} (dec : Json → Except DecodeError α)
    (hdec : ∀ j key, dec j ≠ .error (.duplicateField key)) :
    ∀ (xs : List Json) (key : String),
      decodeList dec xs ≠ .error (.duplicateField key) := by
  intro xs
  induction xs with
  | nil => intro key h; simp [decodeList] at h
  | cons v rest ih =>
    intro key h
    rw [decodeList] at h
    cases hd : dec v with
    | error e =>
      simp [hd] at h
      exact hdec v key (h ▸ hd)
    | ok x =>
      simp only [hd] at h
      cases hrest : decodeList dec rest with
      | error e =>
        simp [hrest] at h
        exact ih key (h ▸ hrest)
      | ok xs' => simp [hrest] at h

/-- `deserialize_array` preserves freedom from duplicate-field errors. -/
lemma deserialize_array_noDup {α : Type} (dec : Json → Except DecodeError α)
    (hdec : ∀ j key, dec j ≠ .error (.duplicateField key)) (v : Json)
    (key : String) : deserialize_array dec v ≠ .error (.duplicateField key) := by
  intro h
  cases v <;> simp [deserialize_array] at h
  rename_i xs
  cases hl : decodeList dec xs with
  | error e =>
    simp [hl] at h
    exact decodeList_noDup dec hdec xs key (h ▸ hl)
  | ok l => simp [hl] at h

/-- The end of the InputValue visitor never reports a duplicate field. -/
lemma inputValueFinish_noDup (st : InputValueState) (key : String) :
    inputValueFinish st ≠ .error (.duplicateField key) := by
  intro h
  rw [inputValueFinish.eq_def] at h
  repeat' split at h
  all_goals
    first
      | (rename_i heq
         injection h with h2
         rw [h2] at heq
         exact require_field_noDup _ _ key heq)
      | exact Except.noConfusion h

/-- One InputValue key iteration never reports a duplicate field. -/
lemma inputValueStep_noDup (st : InputValueState) (e : String × Json)
    (key : String) : inputValueStep st e ≠ .error (.duplicateField key) := by
  obtain ⟨k, v⟩ := e
  intro h
  rcases eq_or_ne k NAME_ALIAS with rfl | h1
  · simp [inputValueStep] at h
    cases hd : decodeString v <;> simp [hd] at h
    exact decodeString_noDup v key (h ▸ hd)
  rcases eq_or_ne k DESCRIPTION_ALIAS with rfl | h2
  · simp [inputValueStep, NAME_ALIAS, DESCRIPTION_ALIAS] at h
    cases hd : decodeOptString v <;> simp [hd] at h
    exact decodeOptString_noDup v key (h ▸ hd)
  rcases eq_or_ne k TYPE_ALIAS with rfl | h3
  · simp [inputValueStep, NAME_ALIAS, DESCRIPTION_ALIAS, TYPE_ALIAS] at h
    cases hd : deserialize_value deserialize_type_ref v <;> simp [hd] at h
    exact deserialize_value_noDup deserialize_type_ref typeRef_noDup.1 v key (h ▸ hd)
  rcases eq_or_ne k DEFAULT_VALUE_ALIAS with rfl | h4
  · simp [inputValueStep, NAME_ALIAS, DESCRIPTION_ALIAS, TYPE_ALIAS,
      DEFAULT_VALUE_ALIAS] at h
    cases hd : decodeOptJson v <;> simp [hd] at h
    exact decodeOptJson_noDup v key (h ▸ hd)
  · simp [inputValueStep, h1, h2, h3, h4, handle_unexpected_key] at h

/-- The InputValue decoder never reports a duplicate field. -/
lemma deserialize_input_value_noDup (j : Json) (key : String) :
    deserialize_input_value j ≠ .error (.duplicateField key) := by
  have go : ∀ (entries : List (String × Json)) (st : InputValueState) (key : String),
      inputValueGo st entries ≠ .error (.duplicateField key) := by
    intro entries
    induction entries with
    | nil =>
      intro st key h
      rw [inputValueGo] at h
      exact inputValueFinish_noDup st key h
    | cons e rest ih =>
      intro st key h
      cases hstep : inputValueStep st e with
      | ok st' =>
        simp [inputValueGo, hstep] at h
        exact ih st' key h
      | error err =>
        simp [inputValueGo, hstep] at h
        exact inputValueStep_noDup st e key (h ▸ hstep)
  intro h
  cases j <;> simp [deserialize_input_value] at h
  exact go _ _ key h

/-- The end of the EnumValue visitor never reports a duplicate field. -/
lemma enumValueFinish_noDup (st : EnumValueState) (key : String) :
    enumValueFinish st ≠ .error (.duplicateField key) := by
  intro h
  rw [enumValueFinish.eq_def] at h
  repeat' split at h
  all_goals
    first
      | (rename_i heq
         injection h with h2
         rw [h2] at heq
         exact require_field_noDup _ _ key heq)
      | exact Except.noConfusion h

/-- One EnumValue key iteration never reports a duplicate field. -/
lemma enumValueStep_noDup (st : EnumValueState) (e : String × Json)
    (key : String) : enumValueStep st e ≠ .error (.duplicateField key) := by
  obtain ⟨k, v⟩ := e
  intro h
  rcases eq_or_ne k NAME_ALIAS with rfl | h1
  · simp [enumValueStep] at h
    cases hd : decodeString v <;> simp [hd] at h
    exact decodeString_noDup v key (h ▸ hd)
  rcases eq_or_ne k DESCRIPTION_ALIAS with rfl | h2
  · simp [enumValueStep, NAME_ALIAS, DESCRIPTION_ALIAS] at h
    cases hd : decodeOptString v <;> simp [hd] at h
    exact decodeOptString_noDup v key (h ▸ hd)
  rcases eq_or_ne k IS_DEPRECATED_ALIAS with rfl | h3
  · simp [enumValueStep, NAME_ALIAS, DESCRIPTION_ALIAS, IS_DEPRECATED_ALIAS] at h
  rcases eq_or_ne k DEPRECATION_REASON_ALIAS with rfl | h4
  · simp [enumValueStep, NAME_ALIAS, DESCRIPTION_ALIAS, IS_DEPRECATED_ALIAS,
      DEPRECATION_REASON_ALIAS] at h
  · simp [enumValueStep, h1, h2, h3, h4, handle_unexpected_key] at h

/-- The EnumValue decoder never reports a duplicate field. -/
lemma deserialize_enum_value_noDup (j : Json) (key : String) :
    deserialize_enum_value j ≠ .error (.duplicateField key) := by
  have go : ∀ (entries : List (String × Json)) (st : EnumValueState) (key : String),
      enumValueGo st entries ≠ .error (.duplicateField key) := by
    intro entries
    induction entries with
    | nil =>
      intro st key h
      rw [enumValueGo] at h
      exact enumValueFinish_noDup st key h
    | cons e rest ih =>
      intro st key h
      cases hstep : enumValueStep st e with
      | ok st' =>
        simp [enumValueGo, hstep] at h
        exact ih st' key h
      | error err =>
        simp [enumValueGo, hstep] at h
        exact enumValueStep_noDup st e key (h ▸ hstep)
  intro h
  cases j <;> simp [deserialize_enum_value] at h
  exact go _ _ key h

/-- The end of the Field visitor never reports a duplicate field. -/
lemma fieldFinish_noDup (st : FieldState) (key : String) :
    fieldFinish st ≠ .error (.duplicateField key) := by
  intro h
  rw [fieldFinish.eq_def] at h
  repeat' split at h
  all_goals
    first
      | (rename_i heq
         injection h with h2
         rw [h2] at heq
         exact require_field_noDup _ _ key heq)
      | exact Except.noConfusion h

/-- One Field key iteration never reports a duplicate field. -/
lemma fieldStep_noDup (st : FieldState) (e : String × Json) (key : String) :
    fieldStep st e ≠ .error (.duplicateField key) := by
  obtain ⟨k, v⟩ := e
  intro h
  rcases eq_or_ne k NAME_ALIAS with rfl | h1
  · simp [fieldStep] at h
    cases hd : decodeString v <;> simp [hd] at h
    exact decodeString_noDup v key (h ▸ hd)
  rcases eq_or_ne k DESCRIPTION_ALIAS with rfl | h2
  · simp [fieldStep, NAME_ALIAS, DESCRIPTION_ALIAS] at h
    cases hd : decodeOptString v <;> simp [hd] at h
    exact decodeOptString_noDup v key (h ▸ hd)
  rcases eq_or_ne k TYPE_ALIAS with rfl | h3
  · simp [fieldStep, NAME_ALIAS, DESCRIPTION_ALIAS, TYPE_ALIAS] at h
    cases hd : deserialize_value deserialize_type_ref v <;> simp [hd] at h
    exact deserialize_value_noDup deserialize_type_ref typeRef_noDup.1 v key (h ▸ hd)
  rcases eq_or_ne k ARGS_ALIAS with rfl | h4
  · simp [fieldStep, NAME_ALIAS, DESCRIPTION_ALIAS, TYPE_ALIAS, ARGS_ALIAS] at h
    cases hd : deserialize_array deserialize_input_value v <;> simp [hd] at h
    exact deserialize_array_noDup deserialize_input_value
      deserialize_input_value_noDup v key (h ▸ hd)
  rcases eq_or_ne k IS_DEPRECATED_ALIAS with rfl | h5
  · simp [fieldStep, NAME_ALIAS, DESCRIPTION_ALIAS, TYPE_ALIAS, ARGS_ALIAS,
      IS_DEPRECATED_ALIAS] at h
  rcases eq_or_ne k DEPRECATION_REASON_ALIAS with rfl | h6
  · simp [fieldStep, NAME_ALIAS, DESCRIPTION_ALIAS, TYPE_ALIAS, ARGS_ALIAS,
      IS_DEPRECATED_ALIAS, DEPRECATION_REASON_ALIAS] at h
  · simp [fieldStep, h1, h2, h3, h4, h5, h6, handle_unexpected_key] at h

/-- The Field decoder never reports a duplicate field. -/
lemma deserialize_field_noDup (j : Json) (key : String) :
    deserialize_field j ≠ .error (.duplicateField key) := by
  have go : ∀ (entries : List (String × Json)) (st : FieldState) (key : String),
      fieldGo st entries ≠ .error (.duplicateField key) := by
    intro entries
    induction entries with
    | nil =>
      intro st key h
      rw [fieldGo] at h
      exact fieldFinish_noDup st key h
    | cons e rest ih =>
      intro st key h
      cases hstep : fieldStep st e with
      | ok st' =>
        simp [fieldGo, hstep] at h
        exact ih st' key h
      | error err =>
        simp [fieldGo, hstep] at h
        exact fieldStep_noDup st e key (h ▸ hstep)
  intro h
  cases j <;> simp [deserialize_field] at h
  exact go _ _ key h

/-- The end of the TypeDefinition visitor never reports a duplicate
field: its errors are missing-field and forbidden-field only. -/
lemma typeDefFinish_noDup (st : TypeDefState) (key : String) :
    typeDefFinish st ≠ .error (.duplicateField key) := by
  intro h
  rw [typeDefFinish.eq_def] at h
  repeat' split at h
  all_goals
    first
      | (rename_i heq
         injection h with h2
         rw [h2] at heq
         first
           | exact require_field_noDup _ _ key heq
           | exact require_field_empty_noDup _ _ key heq)
      | exact Except.noConfusion h

/-- One TypeDefinition key iteration never reports a duplicate field. -/
lemma typeDefStep_noDup (st : TypeDefState) (e : String × Json) (key : String) :
    typeDefStep st e ≠ .error (.duplicateField key) := by
  obtain ⟨k, v⟩ := e
  intro h
  rcases eq_or_ne k KIND_ALIAS with rfl | h1
  · simp [typeDefStep] at h
    cases hd : decodeTypeKind v <;> simp [hd] at h
    exact decodeTypeKind_noDup v key (h ▸ hd)
  rcases eq_or_ne k NAME_ALIAS with rfl | h2
  · simp [typeDefStep, KIND_ALIAS, NAME_ALIAS] at h
    cases hd : decodeString v <;> simp [hd] at h
    exact decodeString_noDup v key (h ▸ hd)
  rcases eq_or_ne k DESCRIPTION_ALIAS with rfl | h3
  · simp [typeDefStep, KIND_ALIAS, NAME_ALIAS, DESCRIPTION_ALIAS] at h
    cases hd : decodeOptString v <;> simp [hd] at h
    exact decodeOptString_noDup v key (h ▸ hd)
  rcases eq_or_ne k FIELDS_ALIAS with rfl | h4
  · simp [typeDefStep, KIND_ALIAS, NAME_ALIAS, DESCRIPTION_ALIAS,
      FIELDS_ALIAS] at h
    cases hd : deserialize_array deserialize_field v <;> simp [hd] at h
    exact deserialize_array_noDup deserialize_field deserialize_field_noDup
      v key (h ▸ hd)
  rcases eq_or_ne k INPUT_FIELDS_ALIAS with rfl | h5
  · simp [typeDefStep, KIND_ALIAS, NAME_ALIAS, DESCRIPTION_ALIAS, FIELDS_ALIAS,
      INPUT_FIELDS_ALIAS] at h
    cases hd : deserialize_array deserialize_input_value v <;> simp [hd] at h
    exact deserialize_array_noDup deserialize_input_value
      deserialize_input_value_noDup v key (h ▸ hd)
  rcases eq_or_ne k INTERFACES_ALIAS with rfl | h6
  · simp [typeDefStep, KIND_ALIAS, NAME_ALIAS, DESCRIPTION_ALIAS, FIELDS_ALIAS,
      INPUT_FIELDS_ALIAS, INTERFACES_ALIAS] at h
    cases hd : deserialize_array decodeNamedType v <;> simp [hd] at h
    exact deserialize_array_noDup decodeNamedType decodeNamedType_noDup
      v key (h ▸ hd)
  rcases eq_or_ne k ENUM_VALUES_ALIAS with rfl | h7
  · simp [typeDefStep, KIND_ALIAS, NAME_ALIAS, DESCRIPTION_ALIAS, FIELDS_ALIAS,
      INPUT_FIELDS_ALIAS, INTERFACES_ALIAS, ENUM_VALUES_ALIAS] at h
    cases hd : deserialize_array deserialize_enum_value v <;> simp [hd] at h
    exact deserialize_array_noDup deserialize_enum_value
      deserialize_enum_value_noDup v key (h ▸ hd)
  rcases eq_or_ne k POSSIBLE_TYPES_ALIAS with rfl | h8
  · simp [typeDefStep, KIND_ALIAS, NAME_ALIAS, DESCRIPTION_ALIAS, FIELDS_ALIAS,
      INPUT_FIELDS_ALIAS, INTERFACES_ALIAS, ENUM_VALUES_ALIAS,
      POSSIBLE_TYPES_ALIAS] at h
    cases hd : deserialize_array decodeNamedType v <;> simp [hd] at h
    exact deserialize_array_noDup decodeNamedType decodeNamedType_noDup
      v key (h ▸ hd)
  · simp [typeDefStep, h1, h2, h3, h4, h5, h6, h7, h8,
      handle_unexpected_key] at h

/-- The TypeDefinition decoder never reports a duplicate field. -/
lemma deserialize_type_definition_noDup (j : Json) (key : String) :
    deserialize_type_definition j ≠ .error (.duplicateField key) := by
  have go : ∀ (entries : List (String × Json)) (st : TypeDefState) (key : String),
      typeDefGo st entries ≠ .error (.duplicateField key) := by
    intro entries
    induction entries with
    | nil =>
      intro st key h
      rw [typeDefGo] at h
      exact typeDefFinish_noDup st key h
    | cons e rest ih =>
      intro st key h
      cases hstep : typeDefStep st e with
      | ok st' =>
        simp [typeDefGo, hstep] at h
        exact ih st' key h
      | error err =>
        simp [typeDefGo, hstep] at h
        exact typeDefStep_noDup st e key (h ▸ hstep)
  intro h
  cases j <;> simp [deserialize_type_definition] at h
  exact go _ _ key h

/-- C10: in the type-definition, Field, InputValue, EnumValue and
type-reference visitors a recognized (non-root) key occurring twice is not
an error: when the first occurrence's value decodes, the loop result is
the same as if only the later occurrence were present (the last
occurrence overwrites), and none of these five decoders ever produces a
duplicate-field error — that error is reserved for the three root-type
keys of the `__schema` object. -/
theorem C10_recognized_keys_last_wins :
    (∀ st k v1 v2 rest st', k ∈ typeDefKeys → typeDefStep st (k, v1) = .ok st' →
      typeDefGo st ((k, v1) :: (k, v2) :: rest) = typeDefGo st ((k, v2) :: rest)) ∧
    (∀ st k v1 v2 rest st', k ∈ fieldKeys → fieldStep st (k, v1) = .ok st' →
      fieldGo st ((k, v1) :: (k, v2) :: rest) = fieldGo st ((k, v2) :: rest)) ∧
    (∀ st k v1 v2 rest st', k ∈ inputValueKeys → inputValueStep st (k, v1) = .ok st' →
      inputValueGo st ((k, v1) :: (k, v2) :: rest) = inputValueGo st ((k, v2) :: rest)) ∧
    (∀ st k v1 v2 rest st', k ∈ enumValueKeys → enumValueStep st (k, v1) = .ok st' →
      enumValueGo st ((k, v1) :: (k, v2) :: rest) = enumValueGo st ((k, v2) :: rest)) ∧
    (∀ st k v1 v2 rest st', k ∈ typeRefKeys → typeRefStep st (k, v1) = .ok st' →
      typeRefGo st ((k, v1) :: (k, v2) :: rest) = typeRefGo st ((k, v2) :: rest)) ∧
    (∀ j key, deserialize_type_definition j ≠ .error (.duplicateField key)) ∧
    (∀ j key, deserialize_field j ≠ .error (.duplicateField key)) ∧
    (∀ j key, deserialize_input_value j ≠ .error (.duplicateField key)) ∧
    (∀ j key, deserialize_enum_value j ≠ .error (.duplicateField key)) ∧
    (∀ j key, deserialize_type_ref j ≠ .error (.duplicateField key)) := by
  refine ⟨?_, ?_, ?_, ?_, ?_,
    deserialize_type_definition_noDup, deserialize_field_noDup,
    deserialize_input_value_noDup, deserialize_enum_value_noDup,
    typeRef_noDup.1⟩
  · intro st k v1 v2 rest st' hk hstep
    have hover := typeDefStep_overwrite st k v1 v2 st' hk hstep
    simp [typeDefGo, hstep, hover]
  · intro st k v1 v2 rest st' hk hstep
    have hover := fieldStep_overwrite st k v1 v2 st' hk hstep
    simp [fieldGo, hstep, hover]
  · intro st k v1 v2 rest st' hk hstep
    have hover := inputValueStep_overwrite st k v1 v2 st' hk hstep
    simp [inputValueGo, hstep, hover]
  · intro st k v1 v2 rest st' hk hstep
    have hover := enumValueStep_overwrite st k v1 v2 st' hk hstep
    simp [enumValueGo, hstep, hover]
  · intro st k v1 v2 rest st' hk hstep
    have hover := typeRefStep_overwrite st k v1 v2 st' hk hstep
    rw [typeRefGo_cons, hstep]
    show typeRefGo st' ((k, v2) :: rest) = typeRefGo st ((k, v2) :: rest)
    rw [typeRefGo_cons, typeRefGo_cons, hover]

/-- Witness for C10 at concrete inputs: a duplicated `name` key in a
type-definition object keeps the later value, a duplicated `kind` key in
a type-reference object keeps the later value, and a concrete
type-reference decode is not a duplicate-field error. -/
theorem C10_recognized_keys_last_wins_witness :
    typeDefGo TypeDefState.initial [("name", .str "A"), ("name", .str "B")] =
      typeDefGo TypeDefState.initial [("name", .str "B")] ∧
    typeRefGo ⟨none, none, none⟩ [("kind", .str "LIST"), ("kind", .str "SCALAR")] =
      typeRefGo ⟨none, none, none⟩ [("kind", .str "SCALAR")] ∧
    deserialize_type_ref (.obj [("kind", .str "SCALAR"), ("name", .str "Int")]) ≠
      .error (.duplicateField "kind") :=
  ⟨C10_recognized_keys_last_wins.1 TypeDefState.initial "name" (.str "A")
      (.str "B") [] ⟨none, some "A", none, none, none, none, none, none⟩
      (by decide) (by decide),
   C10_recognized_keys_last_wins.2.2.2.2.1 ⟨none, none, none⟩ "kind"
      (.str "LIST") (.str "SCALAR") [] ⟨some "LIST", none, none⟩
      (by decide) (by decide),
   C10_recognized_keys_last_wins.2.2.2.2.2.2.2.2.2
      (.obj [("kind", .str "SCALAR"), ("name", .str "Int")]) "kind"⟩

/-- C8: the named-type decoder used for `interfaces`/`possibleTypes`
elements runs the Type-Reference Decoder and succeeds with the bare name
exactly when the reference is `NamedType`; a `ListType`/`NonNullType`
result is a custom error, and decoder errors propagate. -/
theorem C8_named_type_assertion :
    (∀ v n, decodeNamedType v = .ok n ↔ deserialize_type_ref v = .ok (.NamedType n)) ∧
    (∀ v t, deserialize_type_ref v = .ok (.ListType t) →
      decodeNamedType v = .error (.custom "Expected NamedType")) ∧
    (∀ v t, deserialize_type_ref v = .ok (.NonNullType t) →
      decodeNamedType v = .error (.custom "Expected NamedType")) ∧
    (∀ v e, deserialize_type_ref v = .error e → decodeNamedType v = .error e) := by
  refine ⟨?_, ?_, ?_, ?_⟩
  · intro v n
    cases h : deserialize_type_ref v with
    | ok t => cases t <;> simp [decodeNamedType, h]
    | error e => simp [decodeNamedType, h]
  · intro v t h; simp [decodeNamedType, h]
  · intro v t h; simp [decodeNamedType, h]
  · intro v e h; simp [decodeNamedType, h]

/-- Witness for C8: a `LIST` reference is rejected with the custom error
by the named-type decoder, and a `SCALAR` reference yields its name. -/
theorem C8_named_type_assertion_witness :
    decodeNamedType (.obj [("kind", .str "LIST"),
      ("ofType", .obj [("kind", .str "SCALAR"), ("name", .str "X")])]) =
      .error (.custom "Expected NamedType") ∧
    decodeNamedType (.obj [("kind", .str "SCALAR"), ("name", .str "X")]) =
      .ok "X" :=
  ⟨C8_named_type_assertion.2.1 _ (.NamedType "X") (by decide),
   (C8_named_type_assertion.1 _ "X").mpr (by decide)⟩

end GraphQLIntrospection
